import Mathlib

/-!
Verification of the behavioural-signal extraction and travel-archetype
classification engine of the travel-booking application
(`server/services/aiService.js`).

The JavaScript source is shallowly embedded: JS numbers are modelled as
exact rationals (`ℚ`); a JS `NaN` arising from arithmetic on unparseable
dates or `0/0` is modelled as `Option.none`; `Number.prototype.toFixed(k)`
(string display of a rounded number) is modelled by rounding to the
nearest multiple of `10^(-k)`, ties toward `+∞`, which is the numeric
value the rendered string denotes; a JS `Date` value is modelled by its
local-time weekday / hour / month components together with its epoch
timestamp in milliseconds (`JsDate`), and an *Invalid Date* (a record
whose date field cannot be parsed) is modelled as `none`.
-/

/-- `Math.round` / `toFixed(0)`: round to nearest integer, ties toward `+∞`. -/
def jround (q : ℚ) : ℤ := ⌊q + 1/2⌋

/-- Numeric value of `x.toFixed(1)`: round to nearest tenth, ties toward `+∞`. -/
def round1 (q : ℚ) : ℚ := (jround (10 * q) : ℚ) / 10

/-- Render a rational the way `toFixed(1)` does (used for display strings). -/
def fmt1 (q : ℚ) : String :=
  let n : ℤ := jround (10 * q)
  (if n < 0 then "-" else "") ++ toString (n.natAbs / 10) ++ "." ++ toString (n.natAbs % 10)

/-- JS addition where either side may be `NaN` (`none`): `NaN` is absorbing. -/
def nanAdd : Option ℚ → Option ℚ → Option ℚ
  | some a, some b => some (a + b)
  | _, _ => none

/-- `Math.min` on possibly-`NaN` integers: any `NaN` operand gives `NaN`. -/
def nanMin : Option ℤ → Option ℤ → Option ℤ
  | some a, some b => some (min a b)
  | _, _ => none

/-- `Math.max` on possibly-`NaN` integers: any `NaN` operand gives `NaN`. -/
def nanMax : Option ℤ → Option ℤ → Option ℤ
  | some a, some b => some (max a b)
  | _, _ => none

/-- JS `x < c` where `x` may be `NaN`: every comparison with `NaN` is false. -/
def jsLt (x : Option ℚ) (c : ℚ) : Bool :=
  match x with
  | some v => decide (v < c)
  | none => false

/-- JS `x > c` where `x` may be `NaN`: every comparison with `NaN` is false. -/
def jsGt (x : Option ℚ) (c : ℚ) : Bool :=
  match x with
  | some v => decide (c < v)
  | none => false

/-- A parsed JS `Date`: local-time weekday (`getDay`), hour (`getHours`),
month (`getMonth`) and epoch timestamp in milliseconds (`getTime`). -/
structure JsDate where
  day : Fin 7
  hour : Fin 24
  month : Fin 12
  ts : ℚ
deriving DecidableEq

/-- A booking record as read by the extractors; `none` in a date field models
a missing or unparseable date (JS *Invalid Date*). -/
structure Booking where
  bookingDate : Option JsDate := none
  checkIn : Option JsDate := none
  checkOut : Option JsDate := none
  propertyId : Option String := none
deriving DecidableEq

/-- A search record (`date`, `propertyId`, `searchTerm`). -/
structure Search where
  date : Option JsDate := none
  propertyId : Option String := none
  searchTerm : Option String := none
deriving DecidableEq

/-- A browsing-session record; `endTime` may be absent. -/
structure Session where
  startTime : Option JsDate := none
  endTime : Option JsDate := none
deriving DecidableEq

/-! ## `detectBookingPatterns` -/

/-- Day names in JS `getDay` order. -/
def days : List String :=
  ["Sunday", "Monday", "Tuesday", "Wednesday", "Thursday", "Friday", "Saturday"]

/-- The four time-of-day buckets of `detectBookingPatterns`. -/
inductive TimeOfDay where
  | morning | afternoon | evening | night
deriving DecidableEq, Fintype

def TimeOfDay.name : TimeOfDay → String
  | .morning => "morning"
  | .afternoon => "afternoon"
  | .evening => "evening"
  | .night => "night"

/-- The time-of-day bucket a booking falls in.  In the source the chain
`hour >= 5 && hour < 12` / `>= 12 && < 17` / `>= 17 && < 22` / `else` is run
on `getHours()`; for an unparseable date `getHours()` is `NaN`, every
comparison is false and the final `else` increments the `night` bucket. -/
def timeBucketOf (b : Booking) : TimeOfDay :=
  match b.bookingDate with
  | some d =>
    if 5 ≤ d.hour.val ∧ d.hour.val < 12 then .morning
    else if 12 ≤ d.hour.val ∧ d.hour.val < 17 then .afternoon
    else if 17 ≤ d.hour.val ∧ d.hour.val < 22 then .evening
    else .night
  | none => .night

/-- `dayOfWeekCounts[d]` after the `forEach` loop: a record with an
unparseable date contributes to no real index (`dayOfWeekCounts[NaN]++`
touches no element `0..6`). -/
def dayCounts (bs : List Booking) (d : Fin 7) : ℕ :=
  bs.countP (fun b =>
    match b.bookingDate with
    | some dt => dt.day = d
    | none => false)

/-- `timeOfDayCounts[t]` after the `forEach` loop. -/
def timeCounts (bs : List Booking) (t : TimeOfDay) : ℕ :=
  bs.countP (fun b => timeBucketOf b = t)

structure DayEntry where
  day : String
  count : ℕ
  percentage : ℚ
deriving DecidableEq

structure TimeEntry where
  timeOfDay : String
  count : ℕ
  percentage : ℚ
deriving DecidableEq

/-- Result of `detectBookingPatterns`; fields absent from the source's
empty-input object are modelled as `none` / `[]`. -/
structure BookingTimeReport where
  preferredDayOfWeek : Option String
  preferredTimeOfDay : Option String
  dayDistribution : List DayEntry
  timeDistribution : List TimeEntry
deriving DecidableEq

/-- `timeEntries.reduce((a, b) => a[1] > b[1] ? a : b)`: a reduce without an
initial value starts from the first element and, on ties, keeps the *later*
entry (the condition keeps `a` only when strictly greater). -/
def lastMaxPair (l : List (String × ℕ)) : Option (String × ℕ) :=
  match l with
  | [] => none
  | x :: xs => some (xs.foldl (fun a b => if a.2 > b.2 then a else b) x)

/-- `detectBookingPatterns` (aiService.js lines 239–287). -/
def detectBookingPatterns (bs : List Booking) : BookingTimeReport :=
  if bs.isEmpty then
    { preferredDayOfWeek := none, preferredTimeOfDay := none
      dayDistribution := [], timeDistribution := [] }
  else
    let counts := (List.finRange 7).map (fun d => dayCounts bs d)
    let maxDayCount := counts.foldr max 0
    let preferredDayIndex := counts.indexOf maxDayCount
    let timeEntries := [TimeOfDay.morning, .afternoon, .evening, .night].map
      (fun t => (t.name, timeCounts bs t))
    { preferredDayOfWeek := some (days.getD preferredDayIndex "")
      preferredTimeOfDay := (lastMaxPair timeEntries).map Prod.fst
      dayDistribution := (List.finRange 7).map (fun d =>
        { day := days.getD d.val ""
          count := dayCounts bs d
          percentage := round1 ((dayCounts bs d : ℚ) / bs.length * 100) })
      timeDistribution := [TimeOfDay.morning, .afternoon, .evening, .night].map (fun t =>
        { timeOfDay := t.name
          count := timeCounts bs t
          percentage := round1 ((timeCounts bs t : ℚ) / bs.length * 100) }) }

/-! ## `analyzeBrowsingHours` -/

structure HourEntry where
  hour : String
  count : ℕ
  percentage : ℚ
deriving DecidableEq

structure BrowsingReport where
  preferredBrowsingTime : Option String
  averageSessionDuration : Option String
  hourlyDistribution : List HourEntry
deriving DecidableEq

/-- `hourCounts[h]`: a session with an unparseable `startTime` hits
`hourCounts[NaN]++`, touching no real bucket. -/
def hourCounts (ss : List Session) (h : Fin 24) : ℕ :=
  ss.countP (fun s =>
    match s.startTime with
    | some dt => dt.hour = h
    | none => false)

/-- `(endTime − startTime)` in minutes for one session, when `endTime` is
present; `NaN` (`none`) when either date is unparseable. -/
def sessionDuration (s : Session) : Option (Option ℚ) :=
  match s.endTime with
  | none => none
  | some e =>
    match s.startTime with
    | some st => some (some ((e.ts - st.ts) / 60000))
    | none => some none

/-- `analyzeBrowsingHours` (aiService.js lines 294–332). -/
def analyzeBrowsingHours (ss : List Session) : BrowsingReport :=
  if ss.isEmpty then
    { preferredBrowsingTime := none, averageSessionDuration := none
      hourlyDistribution := [] }
  else
    let counts := (List.finRange 24).map (fun h => hourCounts ss h)
    let maxHourCount := counts.foldr max 0
    let preferredHourIndex := counts.indexOf maxHourCount
    let totalDuration := (ss.filterMap sessionDuration).foldl nanAdd (some 0)
    { preferredBrowsingTime :=
        some (toString preferredHourIndex ++ ":00 - " ++ toString (preferredHourIndex + 1) ++ ":00")
      averageSessionDuration :=
        some ((match totalDuration.map (fun t => t / (ss.length : ℚ)) with
          | some q => fmt1 q
          | none => "NaN") ++ " minutes")
      hourlyDistribution := (List.finRange 24).map (fun h =>
        { hour := toString h.val ++ ":00"
          count := hourCounts ss h
          percentage := round1 ((hourCounts ss h : ℚ) / ss.length * 100) }) }

/-! ## `detectSeasonalTrends` -/

inductive Season where
  | spring | summer | fall | winter
deriving DecidableEq, Fintype

def Season.name : Season → String
  | .spring => "spring"
  | .summer => "summer"
  | .fall => "fall"
  | .winter => "winter"

/-- Season of a search: months 2–4 spring, 5–7 summer, 8–10 fall, `else`
winter.  For an unparseable date `getMonth()` is `NaN`, every range test is
false and the record lands in `winter`. -/
def seasonOf (s : Search) : Season :=
  match s.date with
  | some d =>
    if 2 ≤ d.month.val ∧ d.month.val ≤ 4 then .spring
    else if 5 ≤ d.month.val ∧ d.month.val ≤ 7 then .summer
    else if 8 ≤ d.month.val ∧ d.month.val ≤ 10 then .fall
    else .winter
  | none => .winter

def seasonCounts (qs : List Search) (x : Season) : ℕ :=
  qs.countP (fun s => seasonOf s = x)

structure SeasonEntry where
  season : String
  count : ℕ
  percentage : ℚ
deriving DecidableEq

structure SeasonalReport where
  preferredSeason : Option String
  seasonalDistribution : List SeasonEntry
deriving DecidableEq

/-- `detectSeasonalTrends` (aiService.js lines 339–380); the distribution
object keyed spring/summer/fall/winter is modelled as a list in that order. -/
def detectSeasonalTrends (qs : List Search) : SeasonalReport :=
  if qs.isEmpty then
    { preferredSeason := none, seasonalDistribution := [] }
  else
    let entries := [Season.spring, .summer, .fall, .winter].map
      (fun x => (x.name, seasonCounts qs x))
    { preferredSeason := (lastMaxPair entries).map Prod.fst
      seasonalDistribution := [Season.spring, .summer, .fall, .winter].map (fun x =>
        { season := x.name
          count := seasonCounts qs x
          percentage := round1 ((seasonCounts qs x : ℚ) / qs.length * 100) }) }

/-! ## `calculatePlanningWindow` -/

structure PlanningReport where
  averagePlanningDays : Option ℤ
  planningStyle : Option String
  shortestPlanningDays : Option ℤ
  longestPlanningDays : Option ℤ
deriving DecidableEq

/-- `Math.round((checkIn − bookingDate) / day)` for one booking; `none`
models the `NaN` produced when either date is unparseable. -/
def planningDaysOf (b : Booking) : Option ℤ :=
  match b.bookingDate, b.checkIn with
  | some d, some c => some (jround ((c.ts - d.ts) / 86400000))
  | _, _ => none

/-- `Math.min(...planningWindows)` / `Math.max(...)`: `NaN` wins over
everything.  The list is non-empty on the path where this is used. -/
def nanMinList (l : List (Option ℤ)) : Option ℤ :=
  match l with
  | [] => none
  | x :: xs => xs.foldl nanMin x

def nanMaxList (l : List (Option ℤ)) : Option ℤ :=
  match l with
  | [] => none
  | x :: xs => xs.foldl nanMax x

/-- Sum of the planning windows (`reduce((sum, days) => sum + days, 0)`);
`NaN` is absorbing. -/
def nanSumZ (l : List (Option ℤ)) : Option ℤ :=
  l.foldl (fun a b =>
    match a, b with
    | some x, some y => some (x + y)
    | _, _ => none) (some 0)

/-- `calculatePlanningWindow` (aiService.js lines 387–424). -/
def calculatePlanningWindow (bs : List Booking) : PlanningReport :=
  if bs.isEmpty then
    { averagePlanningDays := none, planningStyle := none
      shortestPlanningDays := none, longestPlanningDays := none }
  else
    let planningWindows := bs.map planningDaysOf
    let totalDays := nanSumZ planningWindows
    let averagePlanningDays := totalDays.map (fun t : ℤ => jround ((t : ℚ) / (bs.length : ℚ)))
    { averagePlanningDays := averagePlanningDays
      planningStyle := some (match averagePlanningDays with
        | some a => if a < 14 then "Spontaneous"
            else if a < 60 then "Moderate Planner"
            else "Advance Planner"
        | none => "Advance Planner")  -- NaN < 14 and NaN < 60 are both false
      shortestPlanningDays := nanMinList planningWindows
      longestPlanningDays := nanMaxList planningWindows }

/-! ## `analyzeTimePatterns` -/

/-- The `userActivity` bundle; each sequence is optional (`|| []`). -/
structure Activity where
  bookings : Option (List Booking) := none
  sessions : Option (List Session) := none
  searches : Option (List Search) := none

structure TimePatterns where
  bookingTime : Option BookingTimeReport
  browsingTime : Option BrowsingReport
  seasonalPreference : Option SeasonalReport
  planningHorizon : Option PlanningReport
deriving DecidableEq

/-- `analyzeTimePatterns` (aiService.js lines 214–232): a missing activity
bundle yields the all-`null` report. -/
def analyzeTimePatterns (userActivity : Option Activity) : TimePatterns :=
  match userActivity with
  | none =>
    { bookingTime := none, browsingTime := none
      seasonalPreference := none, planningHorizon := none }
  | some a =>
    { bookingTime := some (detectBookingPatterns (a.bookings.getD []))
      browsingTime := some (analyzeBrowsingHours (a.sessions.getD []))
      seasonalPreference := some (detectSeasonalTrends (a.searches.getD []))
      planningHorizon := some (calculatePlanningWindow (a.bookings.getD [])) }

/-! ## `calculateAverageHoverTime` -/

/-- A hover record; `duration || 0` and `elementType || 'unknown'` are the
source's defaults for missing fields. -/
structure Hover where
  duration : Option ℚ := none
  elementType : Option String := none
deriving DecidableEq

def Hover.dur (h : Hover) : ℚ := h.duration.getD 0

def Hover.etype (h : Hover) : String := h.elementType.getD "unknown"

/-- Keys of a JS object built by first-come insertion: the distinct element
types in order of first occurrence. -/
def firstDedup : List String → List String
  | [] => []
  | x :: xs => x :: firstDedup (xs.filter (fun y => y ≠ x))
termination_by l => l.length
decreasing_by
  exact Nat.lt_succ_of_le (List.length_filter_le _ _)

/-- `hoverTimeByType[t]`: total duration of the hovers whose element type
is `t`. -/
def hoverTimeByType (hs : List Hover) (t : String) : ℚ :=
  ((hs.filter (fun h => h.etype = t)).map Hover.dur).sum

def totalHoverTime (hs : List Hover) : ℚ := (hs.map Hover.dur).sum

structure ElemEntry where
  elementType : String
  totalTime : ℚ
  percentage : ℚ
deriving DecidableEq

structure HoverReport where
  averageTime : Option String
  mostViewedElementType : Option String
  elementBreakdown : List ElemEntry
deriving DecidableEq

/-- `Object.entries(hoverTimeByType).reduce((a,b) => a[1] > b[1] ? a : b)`:
ties keep the later entry. -/
def lastMaxPairQ (l : List (String × ℚ)) : Option (String × ℚ) :=
  match l with
  | [] => none
  | x :: xs => some (xs.foldl (fun a b => if a.2 > b.2 then a else b) x)

/-- `calculateAverageHoverTime` (aiService.js lines 454–489). -/
def calculateAverageHoverTime (hs : List Hover) : HoverReport :=
  if hs.isEmpty then
    { averageTime := none, mostViewedElementType := none, elementBreakdown := [] }
  else
    let types := firstDedup (hs.map Hover.etype)
    let entries := types.map (fun t => (t, hoverTimeByType hs t))
    { averageTime := some (fmt1 (totalHoverTime hs / hs.length) ++ " seconds")
      mostViewedElementType := (lastMaxPairQ entries).map Prod.fst
      elementBreakdown := types.map (fun t =>
        { elementType := t
          totalTime := hoverTimeByType hs t
          percentage := round1 (hoverTimeByType hs t / totalHoverTime hs * 100) }) }

/-! ## `analyzeScrollPatterns` -/

/-- A scroll record; a field that is absent *or zero* is falsy in the
source's `if (scroll.depthPercentage)` / `if (scroll.pixelsPerSecond)`. -/
structure Scroll where
  depthPercentage : Option ℚ := none
  pixelsPerSecond : Option ℚ := none
deriving DecidableEq

def truthyQ (o : Option ℚ) : Bool :=
  match o with
  | some v => decide (v ≠ 0)
  | none => false

structure ScrollReport where
  scrollDepth : Option ℚ
  scrollSpeed : Option ℚ
  scrollBehavior : Option String
deriving DecidableEq

/-- `analyzeScrollPatterns` (aiService.js lines 496–533).  The displayed
depth/speed strings are modelled by their numeric (`toFixed(1)`-rounded)
values; the behaviour label compares those displayed values against 80 and
1000 (a `null` average compares false). -/
def analyzeScrollPatterns (scrolls : List Scroll) : ScrollReport :=
  if scrolls.isEmpty then
    { scrollDepth := none, scrollSpeed := none, scrollBehavior := none }
  else
    let completedScrolls := scrolls.countP (fun s => truthyQ s.depthPercentage)
    let totalDepth := ((scrolls.filter (fun s => truthyQ s.depthPercentage)).map
      (fun s => s.depthPercentage.getD 0)).sum
    let totalSpeed := ((scrolls.filter (fun s => truthyQ s.pixelsPerSecond)).map
      (fun s => s.pixelsPerSecond.getD 0)).sum
    let averageDepth : Option ℚ :=
      if completedScrolls > 0 then some (round1 (totalDepth / completedScrolls)) else none
    let averageSpeed : Option ℚ := some (round1 (totalSpeed / scrolls.length))
    { scrollDepth := averageDepth
      scrollSpeed := averageSpeed
      scrollBehavior := some (
        if jsGt averageDepth 80 then
          (if jsGt averageSpeed 1000 then "Rapid Deep Reader" else "Thorough Reader")
        else
          (if jsGt averageSpeed 1000 then "Quick Scanner" else "Casual Browser")) }

/-! ## `analyzePriceSensitivity` -/

structure PriceFilter where
  minPrice : Option ℚ := none
  maxPrice : Option ℚ := none
deriving DecidableEq

structure PriceReport where
  priceElasticity : Option String
  priceSensitivity : Option String
  averagePriceRange : Option String
deriving DecidableEq

/-- Number of adjacent filter pairs whose min or max price differs
(`prevFilter.minPrice !== currentFilter.minPrice || ...`; two absent fields
compare equal, as `undefined === undefined` does). -/
def priceChanges (fs : List PriceFilter) : ℕ :=
  (fs.zip fs.tail).countP (fun p =>
    p.1.minPrice ≠ p.2.minPrice ∨ p.1.maxPrice ≠ p.2.maxPrice)

/-- `analyzePriceSensitivity` (aiService.js lines 569–616).  With a single
filter the source evaluates `(0 / 0) * 100`, i.e. `NaN`, modelled as
`none`; `NaN.toFixed(1)` renders `"NaN"` and both threshold comparisons on
it are false. -/
def analyzePriceSensitivity (fs : List PriceFilter) : PriceReport :=
  if fs.isEmpty then
    { priceElasticity := none, priceSensitivity := none, averagePriceRange := none }
  else
    let totalMinPrice := (fs.map (fun f => f.minPrice.getD 0)).sum
    let totalMaxPrice := (fs.map (fun f => f.maxPrice.getD 0)).sum
    let elasticity : Option ℚ :=
      if fs.length = 1 then none
      else some ((priceChanges fs : ℚ) / ((fs.length : ℚ) - 1) * 100)
    { priceElasticity := some ((match elasticity with
        | some e => fmt1 e
        | none => "NaN") ++ "%")
      priceSensitivity := some (match elasticity with
        | some e => if 60 < round1 e then "High"
            else if 30 < round1 e then "Medium"
            else "Low"
        | none => "Low")
      averagePriceRange := some ("$" ++ toString (jround (totalMinPrice / fs.length))
        ++ " - $" ++ toString (jround (totalMaxPrice / fs.length))) }

/-! ## `calculateImpulsivityScore` -/

/-- The `userChoices` bundle (the fields this analysis reads). -/
structure Choices where
  bookings : Option (List Booking) := none
  searches : Option (List Search) := none

structure ImpulsivityReport where
  score : Option ℤ
  category : Option String
  averageDecisionTimeHours : Option ℚ
  quickDecisionPercentage : Option ℚ
deriving DecidableEq

/-- A search is *related* to a booking when it targets the same property or
lies within 24 hours of the booking date (`Math.abs(...) < 24*60*60*1000`;
a `NaN` difference from an unparseable date compares false). -/
def isRelated (b : Booking) (s : Search) : Bool :=
  s.propertyId = b.propertyId ||
    (match s.date, b.bookingDate with
     | some sd, some bd => decide (|sd.ts - bd.ts| < 86400000)
     | _, _ => false)

/-- `relatedSearches.reduce((earliest, search) => new Date(search.date) <
new Date(earliest.date) ? search : earliest, relatedSearches[0])`:
comparisons with an invalid date are false, so such entries never replace
the accumulator. -/
def earliestSearch (l : List Search) : Option Search :=
  match l with
  | [] => none
  | s0 :: _ => some (l.foldl (fun e s =>
      match s.date, e.date with
      | some sd, some ed => if sd.ts < ed.ts then s else e
      | _, _ => e) s0)

/-- Decision time in hours for one booking: `none` when the booking has no
related search (the booking then contributes nothing to the total), `some
none` when a related search exists but a date is unparseable (`NaN`). -/
def decisionTimeOf (searches : List Search) (b : Booking) : Option (Option ℚ) :=
  let related := searches.filter (isRelated b)
  match earliestSearch related with
  | none => none
  | some e =>
    match b.bookingDate, e.date with
    | some bd, some sd => some (some ((bd.ts - sd.ts) / 3600000))
    | _, _ => some none

/-- `calculateImpulsivityScore` (aiService.js lines 646–705).  The `score`
field is the numeric value of the source's `toFixed(0)` string (`none` for
`"NaN"`); `averageDecisionTimeHours` / `quickDecisionPercentage` carry the
`toFixed(1)`-rounded values. -/
def calculateImpulsivityScore (userChoices : Choices) : ImpulsivityReport :=
  let bookings := userChoices.bookings.getD []
  let searches := userChoices.searches.getD []
  if bookings.isEmpty then
    { score := none, category := none
      averageDecisionTimeHours := none, quickDecisionPercentage := none }
  else
    let totalDecisionTime : Option ℚ :=
      (bookings.filterMap (decisionTimeOf searches)).foldl nanAdd (some 0)
    let quickDecisions : ℕ :=
      bookings.countP (fun b =>
        match decisionTimeOf searches b with
        | some (some t) => decide (t < 1)
        | _ => false)
    let averageDecisionTime := totalDecisionTime.map (fun t => t / (bookings.length : ℚ))
    let quickDecisionRate : ℚ := (quickDecisions : ℚ) / (bookings.length : ℚ) * 100
    let score : Option ℤ := averageDecisionTime.map (fun a =>
      jround (min 100 (max 0 ((100 - a / 24 * 20) + quickDecisionRate / 2))))
    { score := score
      category := some (match score with
        | some n => if 70 < n then "Highly Impulsive"
            else if 40 < n then "Moderately Impulsive"
            else "Planned Decision Maker"
        | none => "Planned Decision Maker")  -- NaN > 70 and NaN > 40 are false
      averageDecisionTimeHours := averageDecisionTime.map round1
      quickDecisionPercentage := some (round1 quickDecisionRate) }

/-! ## `classifyTravelArchetype` -/

/-- The five Big Five dimensions. -/
inductive Trait where
  | openness | conscientiousness | extraversion | agreeableness | neuroticism
deriving DecidableEq, Fintype

def Trait.name : Trait → String
  | .openness => "openness"
  | .conscientiousness => "conscientiousness"
  | .extraversion => "extraversion"
  | .agreeableness => "agreeableness"
  | .neuroticism => "neuroticism"

/-- The categorical trait levels. -/
inductive TraitLevel where
  | low | moderate | high
deriving DecidableEq, Fintype

def TraitLevel.name : TraitLevel → String
  | .low => "low"
  | .moderate => "moderate"
  | .high => "high"

/-- A trait-score profile (`personalityProfile`), five dimensions. -/
structure TraitScores where
  openness : ℚ
  conscientiousness : ℚ
  extraversion : ℚ
  agreeableness : ℚ
  neuroticism : ℚ
deriving DecidableEq

def traitValue (p : TraitScores) : Trait → ℚ
  | .openness => p.openness
  | .conscientiousness => p.conscientiousness
  | .extraversion => p.extraversion
  | .agreeableness => p.agreeableness
  | .neuroticism => p.neuroticism

/-- `score > 70 ? 'high' : (score > 40 ? 'moderate' : 'low')`. -/
def toLevel (s : ℚ) : TraitLevel :=
  if 70 < s then .high else if 40 < s then .moderate else .low

/-- `personalityCategories` (aiService.js lines 1072–1078). -/
def personalityCategories (p : TraitScores) (t : Trait) : TraitLevel :=
  toLevel (traitValue p t)

/-- One archetype definition of the static catalog: required trait levels,
description, recommended property list. -/
structure ArchetypeDef where
  requirements : List (Trait × TraitLevel)
  description : String
  recommendedProperties : List String
deriving DecidableEq

/-- The hard-coded archetype catalog (aiService.js lines 1020–1069), in
declaration order. -/
def archetypes : List (String × ArchetypeDef) :=
  [ ("The Explorer",
     { requirements := [(.openness, .high), (.neuroticism, .low)]
       description := "Seeks new experiences and destinations, values authenticity and adventure"
       recommendedProperties := ["Treehouse", "Remote Cabin", "Eco Lodge", "Wilderness Retreat"] }),
    ("The Comfort Seeker",
     { requirements := [(.neuroticism, .high), (.conscientiousness, .high)]
       description := "Prioritizes comfort, security and predictability in travel experiences"
       recommendedProperties := ["Luxury Resort", "Villa", "High-end Hotel", "Serviced Apartment"] }),
    ("The Social Butterfly",
     { requirements := [(.extraversion, .high), (.agreeableness, .high)]
       description := "Travels to meet people and make connections, enjoys shared experiences"
       recommendedProperties := ["Hostel", "Co-living Space", "Resort", "Urban Apartment"] }),
    ("The Digital Nomad",
     { requirements := [(.openness, .high), (.conscientiousness, .moderate)]
       description := "Seeks balance between work and exploration, values good connectivity"
       recommendedProperties := ["Co-working Hotel", "Long-term Rental", "Connected Cabin", "Urban Loft"] }),
    ("The Luxury Traveler",
     { requirements := [(.conscientiousness, .high), (.openness, .moderate)]
       description := "Values premium experiences, service excellence and exclusivity"
       recommendedProperties := ["5-star Resort", "Private Villa", "Boutique Hotel", "Luxury Yacht"] }),
    ("The Budget Backpacker",
     { requirements := [(.openness, .high), (.conscientiousness, .low)]
       description := "Prioritizes value and authentic experiences over luxury"
       recommendedProperties := ["Hostel", "Budget Hotel", "Shared Apartment", "Camping"] }),
    ("The Cultural Enthusiast",
     { requirements := [(.openness, .high), (.extraversion, .moderate)]
       description := "Travels to experience different cultures, history, and local traditions"
       recommendedProperties := ["Historic Stay", "City Apartment", "Local Homestay", "Heritage Hotel"] }),
    ("The Wellness Seeker",
     { requirements := [(.conscientiousness, .high), (.neuroticism, .moderate)]
       description := "Prioritizes health, wellness and rejuvenation during travel"
       recommendedProperties := ["Spa Resort", "Yoga Retreat", "Hot Springs Villa", "Wellness Center"] }) ]

/-- Points awarded for one declared trait requirement (aiService.js lines
1090–1099): 25 on an exact level match; 15 when the computed level is
`moderate` and the required one `high`, or the computed `high` and the
required `moderate`; otherwise nothing. -/
def traitMatchPoints (computed required : TraitLevel) : ℕ :=
  if computed = required then 25
  else if (computed = .moderate ∧ required = .high) ∨
          (computed = .high ∧ required = .moderate) then 15
  else 0

/-- The per-requirement step of the classifier's `forEach` over an
archetype's declared trait levels, accumulating score and factor strings. -/
def traitFold (cats : Trait → TraitLevel) (acc : ℕ × List String)
    (req : Trait × TraitLevel) : ℕ × List String :=
  if cats req.1 = req.2 then
    (acc.1 + 25, acc.2 ++ [req.1.name ++ " (" ++ req.2.name ++ ")"])
  else if (cats req.1 = .moderate ∧ req.2 = .high) ∨
          (cats req.1 = .high ∧ req.2 = .moderate) then
    (acc.1 + 15, acc.2 ++ [req.1.name ++ " (partial match)"])
  else acc

/-- A sub-report of the behavioural profile carrying the categorical label
the classifier's bonus rules look at (`category` may be `null`). -/
structure CategoryReport where
  category : Option String := none
deriving DecidableEq

/-- A sub-report carrying a `preference` label. -/
structure PreferenceReport where
  preference : Option String := none
deriving DecidableEq

/-- The slice of `behaviorData` the classifier reads; each sub-report is
optional (`behaviorData.x?.category`). -/
structure BehaviorData where
  uniquenessPreference : Option CategoryReport := none
  riskTolerance : Option CategoryReport := none
  priceVsQuality : Option PreferenceReport := none
deriving DecidableEq

/-- The behavioural bonus block (aiService.js lines 1104–1124): +20 points
and a factor string for each archetype/signal pair that holds. -/
def bonusFold (archetypeName : String) (behaviorData : Option BehaviorData)
    (acc : ℕ × List String) : ℕ × List String :=
  match behaviorData with
  | none => acc
  | some bd =>
    let acc := if archetypeName = "The Explorer" ∧
        bd.uniquenessPreference.bind (fun r => r.category) = some "Novelty Seeker" then
        (acc.1 + 20, acc.2 ++ ["novelty seeking behavior"]) else acc
    let acc := if archetypeName = "The Comfort Seeker" ∧
        bd.riskTolerance.bind (fun r => r.category) = some "Low Risk Tolerance" then
        (acc.1 + 20, acc.2 ++ ["low risk tolerance"]) else acc
    let acc := if archetypeName = "The Luxury Traveler" ∧
        bd.priceVsQuality.bind (fun r => r.preference) = some "Strongly Quality-Focused" then
        (acc.1 + 20, acc.2 ++ ["quality-focused decisions"]) else acc
    let acc := if archetypeName = "The Budget Backpacker" ∧
        bd.priceVsQuality.bind (fun r => r.preference) = some "Strongly Price-Focused" then
        (acc.1 + 20, acc.2 ++ ["price-focused decisions"]) else acc
    acc

/-- Match score and factors of one archetype for a given profile. -/
def archetypeMatch (p : TraitScores) (b : Option BehaviorData)
    (archetypeName : String) (d : ArchetypeDef) : ℕ × List String :=
  bonusFold archetypeName b (d.requirements.foldl (traitFold (personalityCategories p)) (0, []))

/-- Entry of `archetypeScores` for one archetype. -/
structure ScoreData where
  score : ℕ
  factors : List String
  description : String
  recommendedProperties : List String
deriving DecidableEq

/-- `archetypeScores` as an ordered association list (JS object insertion
order = catalog declaration order). -/
def archetypeScoresList (p : TraitScores) (b : Option BehaviorData) :
    List (String × ScoreData) :=
  archetypes.map (fun e =>
    (e.1, { score := (archetypeMatch p b e.1 e.2).1
            factors := (archetypeMatch p b e.1 e.2).2
            description := e.2.description
            recommendedProperties := e.2.recommendedProperties }))

/-- The `(archetype, score)` pairs the best-match `reduce` ranges over. -/
def scorePairs (p : TraitScores) (b : Option BehaviorData) : List (String × ℕ) :=
  (archetypeScoresList p b).map (fun x => (x.1, x.2.score))

/-- `reduce((best, [archetype, data]) => data.score > best.score ? {...} :
best, { archetype: '', score: 0 })`: first entry with a strictly greater
score wins; equal scores never replace the accumulator. -/
def bestMatch (p : TraitScores) (b : Option BehaviorData) : String × ℕ :=
  (scorePairs p b).foldl (fun best x => if x.2 > best.2 then x else best) ("", 0)

/-- Stable insertion of an entry into a list sorted by strictly descending
key: the new element goes in front of the first entry whose key is not
greater, so previously inserted equal-key entries keep their place.  This
is the (unique) output of the source's stable `sort((a, b) => b[1].score -
a[1].score)`. -/
def insertByScoreDesc (key : α → ℕ) (x : α) : List α → List α
  | [] => [x]
  | y :: ys => if key y ≤ key x then x :: y :: ys else y :: insertByScoreDesc key x ys

/-- Stable sort by descending key. -/
def sortByScoreDesc (key : α → ℕ) : List α → List α
  | [] => []
  | x :: xs => insertByScoreDesc key x (sortByScoreDesc key xs)

/-- One entry of the returned `topArchetypes` list. -/
structure TopEntry where
  archetype : String
  score : ℕ
  description : String
  factors : List String
  recommendedProperties : List String
deriving DecidableEq

structure ClassificationResult where
  primaryArchetype : String
  matchScore : ℕ
  primaryDescription : Option String
  recommendedProperties : Option (List String)
  topArchetypes : List TopEntry
deriving DecidableEq

/-- Description lookup `archetypes[name]?.description`. -/
def catalogLookup (n : String) : Option ArchetypeDef :=
  (archetypes.find? (fun e => e.1 = n)).map Prod.snd

/-- `classifyTravelArchetype` (aiService.js lines 1018–1157). -/
def classifyTravelArchetype (p : TraitScores) (b : Option BehaviorData) :
    ClassificationResult :=
  let best := bestMatch p b
  { primaryArchetype := best.1
    matchScore := best.2
    primaryDescription := (catalogLookup best.1).map (fun d => d.description)
    recommendedProperties := (catalogLookup best.1).map (fun d => d.recommendedProperties)
    topArchetypes := ((sortByScoreDesc (fun x => x.2.score) (archetypeScoresList p b)).take 3).map
      (fun x => { archetype := x.1, score := x.2.score, description := x.2.description
                  factors := x.2.factors, recommendedProperties := x.2.recommendedProperties }) }

/-- Index of an archetype name in the catalog's declaration order. -/
def catalogIdx (n : String) : ℕ := (archetypes.map Prod.fst).indexOf n

/-! ## Specification-side definitions

These follow the *wording* of the specification / claims (not the source)
and exist only to be compared with the source-derived definitions above. -/

/-- Per-requirement award as the claim sentence words it: 25 on an exact
match, 15 whenever computed and required levels are adjacent on the
low/moderate/high scale with one of the two being `moderate` (so
moderate↔high *and* moderate↔low both earn partial credit). -/
def claimPartialCredit (computed required : TraitLevel) : ℕ :=
  if computed = required then 25
  else if (computed = .moderate ∧ (required = .high ∨ required = .low)) ∨
          (required = .moderate ∧ (computed = .high ∨ computed = .low)) then 15
  else 0

/-- Trait-requirement score of one archetype under the claim's award rule. -/
def claimArchetypeScore (p : TraitScores) (d : ArchetypeDef) : ℕ :=
  (d.requirements.map (fun req => claimPartialCredit (personalityCategories p req.1) req.2)).sum

/-- Per-requirement award as the *amended* claim words it: 25 on an exact
match; 15 only when the computed/required pair is moderate-against-high or
high-against-moderate; a computed `moderate` against a required `low` (and
vice versa) earns nothing, as does low against high. -/
def amendedPartialCredit (computed required : TraitLevel) : ℕ :=
  if computed = required then 25
  else if computed = .moderate ∧ required = .high then 15
  else if computed = .high ∧ required = .moderate then 15
  else 0

/-- Mean decision time as the claim words it: averaged only over the
bookings that have a related search. -/
def claimMeanDecisionHours (userChoices : Choices) : Option ℚ :=
  let bookings := userChoices.bookings.getD []
  let searches := userChoices.searches.getD []
  let ts := bookings.filterMap (fun b => (decisionTimeOf searches b).bind id)
  if ts.length = 0 then none else some (ts.sum / (ts.length : ℚ))

/-- Impulsivity score as the claim words it:
`clamp(100 − (meanDecisionHours/24)·20 + quickDecisionRate/2, 0, 100)` with
the mean over related-search bookings only and the quick-decision rate over
all bookings. -/
def claimImpulsivityScore (userChoices : Choices) : Option ℤ :=
  let bookings := userChoices.bookings.getD []
  let searches := userChoices.searches.getD []
  let quickDecisionRate : ℚ := (bookings.countP (fun b =>
    match decisionTimeOf searches b with
    | some (some t) => decide (t < 1)
    | _ => false) : ℚ) / (bookings.length : ℚ) * 100
  (claimMeanDecisionHours userChoices).map (fun m =>
    jround (min 100 (max 0 ((100 - m / 24 * 20) + quickDecisionRate / 2))))

/-- Mean scroll depth as the claim words it: over records that report a
depth only. -/
def claimMeanDepth (scrolls : List Scroll) : Option ℚ :=
  let ds := (scrolls.filter (fun s => truthyQ s.depthPercentage)).map
    (fun s => s.depthPercentage.getD 0)
  if ds.length = 0 then none else some (ds.sum / (ds.length : ℚ))

/-- Mean scroll speed as the claim words it: over records that report a
speed only. -/
def claimMeanSpeed (scrolls : List Scroll) : Option ℚ :=
  let vs := (scrolls.filter (fun s => truthyQ s.pixelsPerSecond)).map
    (fun s => s.pixelsPerSecond.getD 0)
  if vs.length = 0 then none else some (vs.sum / (vs.length : ℚ))

/-- Scroll behaviour label as the claim words it: the 2×2 rule on
(mean depth > 80, mean speed > 1000) with the means above. -/
def claimScrollLabel (scrolls : List Scroll) : String :=
  if jsGt (claimMeanDepth scrolls) 80 then
    (if jsGt (claimMeanSpeed scrolls) 1000 then "Rapid Deep Reader" else "Thorough Reader")
  else
    (if jsGt (claimMeanSpeed scrolls) 1000 then "Quick Scanner" else "Casual Browser")

/-! ## C5 — empty/absent inputs give the documented null shapes -/

/-- C5 (confirmed): `calculateAverageHoverTime []` returns the
`{averageTime: null, mostViewedElementType: null}` shape and
`analyzeTimePatterns` of an absent activity bundle returns all four
sub-reports as `null`; both are total functions, so neither raises. -/
theorem C5_empty_null_shapes :
    calculateAverageHoverTime [] =
      { averageTime := none, mostViewedElementType := none, elementBreakdown := [] }
    ∧ analyzeTimePatterns none =
      { bookingTime := none, browsingTime := none
        seasonalPreference := none, planningHorizon := none } := by
  constructor <;> rfl

/-! ## C10 — single price filter gives NaN elasticity, "Low" sensitivity -/

/-- C10 (confirmed): on a one-element `priceFilters` list the change count
is divided by `length − 1 = 0`, so the reported elasticity is the string
`"NaN%"`, both threshold comparisons on it are false and the sensitivity is
`"Low"`, while the average price range is still reported from the single
record; the function is total, so no exception is raised. -/
theorem C10_single_filter_nan (f : PriceFilter) :
    analyzePriceSensitivity [f] =
      { priceElasticity := some "NaN%"
        priceSensitivity := some "Low"
        averagePriceRange := some ("$" ++ toString (jround (f.minPrice.getD 0))
          ++ " - $" ++ toString (jround (f.maxPrice.getD 0))) } := by
  simp [analyzePriceSensitivity]

/-! ## C1 — partial-credit rule for trait matching -/

/-- The running score of the classifier's requirement loop is the sum of
the per-requirement awards. -/
theorem traitFold_score (cats : Trait → TraitLevel) :
    ∀ (reqs : List (Trait × TraitLevel)) (acc : ℕ × List String),
      (reqs.foldl (traitFold cats) acc).1 =
        acc.1 + (reqs.map (fun req => traitMatchPoints (cats req.1) req.2)).sum := by
  intro reqs
  induction reqs with
  | nil => intro acc; simp
  | cons r rs ih =>
    intro acc
    rw [List.foldl_cons, ih, List.map_cons, List.sum_cons]
    have h : (traitFold cats acc r).1 = acc.1 + traitMatchPoints (cats r.1) r.2 := by
      unfold traitFold traitMatchPoints
      split_ifs <;> simp
    rw [h]; ring

/-- C1 counterexample: with every trait score 50 each computed level is
`moderate`; 'The Budget Backpacker' requires openness high (partial, 15)
and conscientiousness *low*, for which the source awards 0 — its total is
15 — while the claim's rule (moderate↔low also earns 15) predicts 30. -/
theorem C1_moderate_low_counterexample :
    personalityCategories ⟨50, 50, 50, 50, 50⟩ .conscientiousness = .moderate
    ∧ traitMatchPoints .moderate .low = 0
    ∧ claimPartialCredit .moderate .low = 15
    ∧ (scorePairs ⟨50, 50, 50, 50, 50⟩ none).getD 5 ("", 0) = ("The Budget Backpacker", 15)
    ∧ claimArchetypeScore ⟨50, 50, 50, 50, 50⟩ (archetypes.getD 5 ("", ⟨[], "", []⟩)).2 = 30
    ∧ (15 : ℕ) ≠ 30 := by
  decide

/-- C1 amended (proved): for every computed and required level the source
awards 25 on an exact match and 15 exactly for the moderate-computed /
high-required and high-computed / moderate-required pairs — a computed
`moderate` against a required `low` (or `low` against `moderate`, or `low`
against `high`) earns nothing — and consequently each archetype's
trait-requirement score is the sum of these amended awards over its
declared requirements. -/
theorem C1_amended_award_rule :
    (∀ c r : TraitLevel, traitMatchPoints c r = amendedPartialCredit c r)
    ∧ (∀ (cats : Trait → TraitLevel) (reqs : List (Trait × TraitLevel)),
        (reqs.foldl (traitFold cats) (0, [])).1 =
          (reqs.map (fun req => amendedPartialCredit (cats req.1) req.2)).sum) := by
  have h1 : ∀ c r : TraitLevel, traitMatchPoints c r = amendedPartialCredit c r := by decide
  refine ⟨h1, ?_⟩
  intro cats reqs
  rw [traitFold_score]
  simp only [h1, Nat.zero_add]

/-! ## C9 — scroll-pattern means and the 2×2 behaviour label -/

/-- Two deep scrolls, only the first reporting a speed of 2000 px/s. -/
def scrollsCex : List Scroll :=
  [{ depthPercentage := some 90, pixelsPerSecond := some 2000 },
   { depthPercentage := some 90, pixelsPerSecond := none }]

/-- C9 counterexample: on `scrollsCex` the claim's mean speed over
speed-reporting records is 2000 px/s, predicting "Rapid Deep Reader"; the
source divides the speed total by *all* records, gets 1000 (not > 1000)
and labels "Thorough Reader". -/
theorem C9_speed_denominator_counterexample :
    (analyzeScrollPatterns scrollsCex).scrollBehavior = some "Thorough Reader"
    ∧ claimScrollLabel scrollsCex = "Rapid Deep Reader"
    ∧ some "Thorough Reader" ≠ (some "Rapid Deep Reader" : Option String) := by
  refine ⟨?_, ?_, by simp⟩
  · simp only [analyzeScrollPatterns, scrollsCex, claimMeanDepth]
    norm_num [truthyQ, jsGt, round1, jround, List.countP_cons, List.filter]
  · simp only [claimScrollLabel, claimMeanDepth, claimMeanSpeed, scrollsCex]
    norm_num [truthyQ, jsGt, List.filter]

/-- C9 amended (proved): for every non-empty scrolls list the mean depth is
taken over depth-reporting records only, the mean speed is the sum of the
*reported* speeds divided by the number of *all* scroll records, and the
behaviour label follows the 2×2 rule on (mean depth > 80, mean speed >
1000) applied to those (display-rounded) means, a missing depth mean
comparing false. -/
theorem C9_amended_scroll_label (scrolls : List Scroll) (hne : scrolls ≠ []) :
    (analyzeScrollPatterns scrolls).scrollDepth = (claimMeanDepth scrolls).map round1
    ∧ (analyzeScrollPatterns scrolls).scrollSpeed =
        some (round1 ((((scrolls.filter (fun s => truthyQ s.pixelsPerSecond)).map
          (fun s => s.pixelsPerSecond.getD 0)).sum) / (scrolls.length : ℚ)))
    ∧ (analyzeScrollPatterns scrolls).scrollBehavior = some (
        if jsGt ((claimMeanDepth scrolls).map round1) 80 then
          (if jsGt ((analyzeScrollPatterns scrolls).scrollSpeed) 1000
            then "Rapid Deep Reader" else "Thorough Reader")
        else
          (if jsGt ((analyzeScrollPatterns scrolls).scrollSpeed) 1000
            then "Quick Scanner" else "Casual Browser")) := by
  obtain ⟨a, as, rfl⟩ := List.exists_cons_of_ne_nil hne
  have hdepth : (analyzeScrollPatterns (a :: as)).scrollDepth =
      (claimMeanDepth (a :: as)).map round1 := by
    simp only [analyzeScrollPatterns, claimMeanDepth, List.isEmpty_cons, Bool.false_eq_true,
      if_false, List.countP_eq_length_filter, List.length_map]
    rcases Nat.eq_zero_or_pos ((a :: as).filter (fun s => truthyQ s.depthPercentage)).length
      with h | h
    · simp [h]
    · have h' : ((a :: as).filter (fun s => truthyQ s.depthPercentage)).length ≠ 0 :=
        Nat.pos_iff_ne_zero.mp h
      simp [h, h']
  refine ⟨hdepth, rfl, ?_⟩
  rw [← hdepth]
  rfl

/-- A concrete one-record scroll list for the C9 witness. -/
def scrollsW : List Scroll :=
  [{ depthPercentage := some 90, pixelsPerSecond := some 2000 }]

/-- C9 witness: the amended theorem applied at the concrete `scrollsW`. -/
theorem C9_amended_witness :
    (analyzeScrollPatterns scrollsW).scrollDepth = (claimMeanDepth scrollsW).map round1
    ∧ (analyzeScrollPatterns scrollsW).scrollSpeed =
        some (round1 ((((scrollsW.filter (fun s => truthyQ s.pixelsPerSecond)).map
          (fun s => s.pixelsPerSecond.getD 0)).sum) / (scrollsW.length : ℚ)))
    ∧ (analyzeScrollPatterns scrollsW).scrollBehavior = some (
        if jsGt ((claimMeanDepth scrollsW).map round1) 80 then
          (if jsGt ((analyzeScrollPatterns scrollsW).scrollSpeed) 1000
            then "Rapid Deep Reader" else "Thorough Reader")
        else
          (if jsGt ((analyzeScrollPatterns scrollsW).scrollSpeed) 1000
            then "Quick Scanner" else "Casual Browser")) :=
  C9_amended_scroll_label scrollsW (by simp [scrollsW])

/-! ## C4 — impulsivity score denominators -/

/-- Folding JS `+=` over genuinely numeric summands starting from a number
is plain summation. -/
theorem nanAdd_foldl_map_some (l : List ℚ) :
    ∀ a : ℚ, (l.map some).foldl nanAdd (some a) = some (a + l.sum) := by
  induction l with
  | nil => intro a; simp [nanAdd]
  | cons x xs ih =>
    intro a
    simp only [List.map_cons, List.foldl_cons, nanAdd]
    rw [ih, List.sum_cons]
    congr 1
    ring

/-- A fold whose step always returns one of its two arguments stays inside
any list containing the start and all elements. -/
theorem foldl_choice_mem {α : Type} (f : α → α → α) (hf : ∀ e s, f e s = s ∨ f e s = e)
    (L : List α) : ∀ (m : List α) (x : α), x ∈ L → (∀ y ∈ m, y ∈ L) → m.foldl f x ∈ L := by
  intro m
  induction m with
  | nil => intro x hx _; simpa using hx
  | cons y ys ih =>
    intro x hx hm
    simp only [List.foldl_cons]
    apply ih
    · rcases hf x y with h | h <;> rw [h]
      · exact hm y (by simp)
      · exact hx
    · intro z hz; exact hm z (by simp [hz])

/-- The earliest related search returned by the source's `reduce` is one of
the related searches. -/
theorem earliestSearch_mem (l : List Search) (e : Search)
    (h : earliestSearch l = some e) : e ∈ l := by
  cases l with
  | nil => simp [earliestSearch] at h
  | cons s0 rest =>
    have hf : ∀ (x y : Search),
        (fun e s => match s.date, e.date with
          | some sd, some ed => if sd.ts < ed.ts then s else e
          | _, _ => e) x y = y ∨
        (fun e s => match s.date, e.date with
          | some sd, some ed => if sd.ts < ed.ts then s else e
          | _, _ => e) x y = x := by
      intro x y
      cases hy : y.date <;> cases hx : x.date <;> simp only [hy, hx]
      · exact Or.inr trivial
      · exact Or.inr trivial
      · exact Or.inr trivial
      · split_ifs
        · exact Or.inl rfl
        · exact Or.inr rfl
    have hmem := foldl_choice_mem _ hf (s0 :: rest) (s0 :: rest) s0 (by simp) (fun y hy => hy)
    have he : e = (s0 :: rest).foldl (fun e s => match s.date, e.date with
        | some sd, some ed => if sd.ts < ed.ts then s else e
        | _, _ => e) s0 := by
      have := h.symm
      simpa [earliestSearch] using this
    rw [he]
    exact hmem

/-- When all dates parse, a booking's decision time is `none` (no related
search) or a genuine number — never `NaN`. -/
theorem decisionTimeOf_shape (searches : List Search) (b : Booking)
    (hb : b.bookingDate.isSome) (hs : ∀ s ∈ searches, s.date.isSome) :
    decisionTimeOf searches b = none ∨ ∃ t, decisionTimeOf searches b = some (some t) := by
  rcases he : earliestSearch (searches.filter (isRelated b)) with _ | e
  · left
    simp [decisionTimeOf, he]
  · right
    have hmem : e ∈ searches.filter (isRelated b) := earliestSearch_mem _ _ he
    have hes : e.date.isSome := hs e (List.mem_of_mem_filter hmem)
    obtain ⟨sd, hsd⟩ := Option.isSome_iff_exists.mp hes
    obtain ⟨bd, hbd⟩ := Option.isSome_iff_exists.mp hb
    exact ⟨(bd.ts - sd.ts) / 3600000, by simp [decisionTimeOf, he, hsd, hbd]⟩

/-- With all dates parsed, the list of decision-time summands is the list
of related-booking decision times, each a genuine number. -/
theorem filterMap_decisionTime (searches : List Search) (bs : List Booking)
    (hb : ∀ b ∈ bs, b.bookingDate.isSome) (hs : ∀ s ∈ searches, s.date.isSome) :
    bs.filterMap (decisionTimeOf searches) =
      (bs.filterMap (fun b => (decisionTimeOf searches b).bind id)).map some := by
  induction bs with
  | nil => simp
  | cons b rest ih =>
    have ih' := ih (fun x hx => hb x (by simp [hx]))
    rcases decisionTimeOf_shape searches b (hb b (by simp)) hs with h | ⟨t, h⟩ <;>
      simp [List.filterMap_cons, h, ih']

/-- A parsed date with a given timestamp (weekday/hour/month immaterial). -/
def dateAt (t : ℚ) : JsDate := { day := 0, hour := 0, month := 0, ts := t }

/-- Booking 48 h after the search on the same property. -/
def bkCex1 : Booking := { bookingDate := some (dateAt 172800000), propertyId := some "p1" }

/-- Booking ten days later on a different property: no related search. -/
def bkCex2 : Booking := { bookingDate := some (dateAt 1036800000), propertyId := some "p2" }

def sCex : Search := { date := some (dateAt 0), propertyId := some "p1" }

def choicesCex : Choices :=
  { bookings := some [bkCex1, bkCex2], searches := some [sCex] }

theorem isRelated_cex1 : isRelated bkCex1 sCex = true := by
  simp [isRelated, bkCex1, sCex]

theorem isRelated_cex2 : isRelated bkCex2 sCex = false := by
  simp only [isRelated, bkCex2, sCex, dateAt, Bool.or_eq_false_iff]
  refine ⟨by simp, ?_⟩
  rw [decide_eq_false_iff_not]
  norm_num

theorem decisionTime_cex1 : decisionTimeOf [sCex] bkCex1 = some (some 48) := by
  have hfil : List.filter (isRelated bkCex1) [sCex] = [sCex] := by
    simp [List.filter_cons, isRelated_cex1]
  have he : earliestSearch [sCex] = some sCex := by
    simp [earliestSearch, sCex, dateAt]
  simp only [decisionTimeOf]
  rw [hfil, he]
  simp only [bkCex1, sCex, dateAt]
  norm_num

theorem decisionTime_cex2 : decisionTimeOf [sCex] bkCex2 = none := by
  have hfil : List.filter (isRelated bkCex2) [sCex] = [] := by
    simp [List.filter_cons, isRelated_cex2]
  simp [decisionTimeOf, hfil, earliestSearch]

/-- C4 counterexample: on `choicesCex` the only decision time is 48 h.  The
claim averages it over the one related booking (mean 48, score
`100 − 40 = 60`); the source divides the total by *all* bookings (mean 24,
score `100 − 20 = 80`). -/
theorem C4_mean_denominator_counterexample :
    (calculateImpulsivityScore choicesCex).score = some 80
    ∧ claimImpulsivityScore choicesCex = some 60
    ∧ (some 80 : Option ℤ) ≠ some 60 := by
  refine ⟨?_, ?_, by simp⟩
  · simp only [calculateImpulsivityScore, choicesCex, Option.getD_some, List.isEmpty_cons,
      Bool.false_eq_true, if_false, List.filterMap_cons, decisionTime_cex1, decisionTime_cex2,
      List.filterMap_nil, List.foldl_cons, List.foldl_nil, nanAdd,
      List.countP_cons, List.countP_nil, List.length_cons, List.length_nil]
    norm_num [jround, min_def, max_def]
  · simp only [claimImpulsivityScore, claimMeanDecisionHours, choicesCex, Option.getD_some,
      List.filterMap_cons, decisionTime_cex1, decisionTime_cex2, List.filterMap_nil,
      Option.bind_some, Option.bind_none, List.countP_cons, List.countP_nil,
      List.length_cons, List.length_nil]
    norm_num [jround, min_def, max_def]

/-- C4 amended (proved): for every choices bundle with at least one booking
(all dates parseable), the mean decision time the source feeds into the
score formula divides the total related-search decision time by the number
of *all* bookings — bookings with no related search contribute 0 to the
numerator but still count in the denominator — the quick-decision rate is
likewise over all bookings, and the score is
`round(clamp(100 − (mean/24)·20 + rate/2, 0, 100))`. -/
theorem C4_amended_impulsivity (c : Choices)
    (hne : c.bookings.getD [] ≠ [])
    (hb : ∀ b ∈ c.bookings.getD [], b.bookingDate.isSome)
    (hs : ∀ s ∈ c.searches.getD [], s.date.isSome) :
    (calculateImpulsivityScore c).score =
      some (jround (min 100 (max 0 ((100 -
        (((c.bookings.getD []).filterMap (fun b =>
            (decisionTimeOf (c.searches.getD []) b).bind id)).sum /
          ((c.bookings.getD []).length : ℚ)) / 24 * 20) +
        (((c.bookings.getD []).countP (fun b =>
            jsLt ((decisionTimeOf (c.searches.getD []) b).bind id) 1) : ℚ) /
          ((c.bookings.getD []).length : ℚ) * 100) / 2))))
    ∧ (calculateImpulsivityScore c).averageDecisionTimeHours =
      some (round1 (((c.bookings.getD []).filterMap (fun b =>
          (decisionTimeOf (c.searches.getD []) b).bind id)).sum /
        ((c.bookings.getD []).length : ℚ)))
    ∧ (calculateImpulsivityScore c).quickDecisionPercentage =
      some (round1 (((c.bookings.getD []).countP (fun b =>
          jsLt ((decisionTimeOf (c.searches.getD []) b).bind id) 1) : ℚ) /
        ((c.bookings.getD []).length : ℚ) * 100)) := by
  have hE : (c.bookings.getD []).isEmpty = false := by
    cases h : c.bookings.getD [] with
    | nil => exact absurd h hne
    | cons a l => rfl
  have hfm := filterMap_decisionTime (c.searches.getD []) (c.bookings.getD []) hb hs
  have hq : (fun b => match decisionTimeOf (c.searches.getD []) b with
      | some (some t) => decide (t < 1)
      | _ => false) = (fun b => jsLt ((decisionTimeOf (c.searches.getD []) b).bind id) 1) := by
    funext b
    cases h : decisionTimeOf (c.searches.getD []) b with
    | none => rfl
    | some t => cases t with
      | none => rfl
      | some v => rfl
  simp only [calculateImpulsivityScore, hE, Bool.false_eq_true, if_false, hfm, hq,
    nanAdd_foldl_map_some, zero_add, Option.map_some']
  exact ⟨trivial, trivial, trivial⟩

/-- C4 witness: the amended theorem applied at the concrete `choicesCex`. -/
theorem C4_amended_witness :
    (calculateImpulsivityScore choicesCex).score =
      some (jround (min 100 (max 0 ((100 -
        (((choicesCex.bookings.getD []).filterMap (fun b =>
            (decisionTimeOf (choicesCex.searches.getD []) b).bind id)).sum /
          ((choicesCex.bookings.getD []).length : ℚ)) / 24 * 20) +
        (((choicesCex.bookings.getD []).countP (fun b =>
            jsLt ((decisionTimeOf (choicesCex.searches.getD []) b).bind id) 1) : ℚ) /
          ((choicesCex.bookings.getD []).length : ℚ) * 100) / 2))))
    ∧ (calculateImpulsivityScore choicesCex).averageDecisionTimeHours =
      some (round1 (((choicesCex.bookings.getD []).filterMap (fun b =>
          (decisionTimeOf (choicesCex.searches.getD []) b).bind id)).sum /
        ((choicesCex.bookings.getD []).length : ℚ)))
    ∧ (calculateImpulsivityScore choicesCex).quickDecisionPercentage =
      some (round1 (((choicesCex.bookings.getD []).countP (fun b =>
          jsLt ((decisionTimeOf (choicesCex.searches.getD []) b).bind id) 1) : ℚ) /
        ((choicesCex.bookings.getD []).length : ℚ) * 100)) :=
  C4_amended_impulsivity choicesCex (by simp [choicesCex])
    (by simp [choicesCex, bkCex1, bkCex2])
    (by simp [choicesCex, sCex])

/-! ## C6 — unparseable booking dates in `detectBookingPatterns` -/

/-- Day-of-week buckets are filled only by records with a parseable date. -/
theorem dayCounts_filter (bs : List Booking) (d : Fin 7) :
    dayCounts bs d = dayCounts (bs.filter (fun b => b.bookingDate.isSome)) d := by
  induction bs with
  | nil => rfl
  | cons b rest ih =>
    cases hb : b.bookingDate with
    | none => simp [dayCounts, List.countP_cons, List.filter_cons, hb] at ih ⊢; omega
    | some dt => simp [dayCounts, List.countP_cons, List.filter_cons, hb] at ih ⊢; omega

/-- Time-of-day buckets: records with a parseable date land in their real
bucket; every unparseable record lands in `night`. -/
theorem timeCounts_split (bs : List Booking) (t : TimeOfDay) :
    timeCounts bs t = timeCounts (bs.filter (fun b => b.bookingDate.isSome)) t +
      (if t = .night then bs.countP (fun b => b.bookingDate.isNone) else 0) := by
  induction bs with
  | nil => cases t <;> rfl
  | cons b rest ih =>
    cases hb : b.bookingDate with
    | none =>
      have hbt : timeBucketOf b = .night := by simp [timeBucketOf, hb]
      rcases eq_or_ne t .night with rfl | ht
      · simp [timeCounts, List.countP_cons, List.filter_cons, hb, hbt] at ih ⊢
        omega
      · simp [timeCounts, List.countP_cons, List.filter_cons, hb, hbt, Ne.symm ht, ht]
          at ih ⊢
        omega
    | some dt =>
      by_cases hbt : timeBucketOf b = t
      · rcases eq_or_ne t .night with rfl | ht
        · simp [timeCounts, List.countP_cons, List.filter_cons, hb, hbt] at ih ⊢
          omega
        · simp [timeCounts, List.countP_cons, List.filter_cons, hb, hbt, ht] at ih ⊢
          omega
      · rcases eq_or_ne t .night with rfl | ht
        · simp [timeCounts, List.countP_cons, List.filter_cons, hb, hbt] at ih ⊢
          omega
        · simp [timeCounts, List.countP_cons, List.filter_cons, hb, hbt, ht] at ih ⊢
          omega

/-- C6 amended (proved): in `detectBookingPatterns`, a booking whose date
cannot be parsed contributes to no day-of-week bucket, but it *is* counted
— in the `night` time-of-day bucket — and both percentage families keep the
full bookings count (unparseable records included) as denominator. -/
theorem C6_amended_unparseable_dates (bs : List Booking) (hne : bs ≠ []) :
    (detectBookingPatterns bs).dayDistribution.map (fun e => e.count) =
      (List.finRange 7).map (fun d => dayCounts (bs.filter (fun b => b.bookingDate.isSome)) d)
    ∧ (detectBookingPatterns bs).timeDistribution.map (fun e => e.count) =
      [timeCounts (bs.filter (fun b => b.bookingDate.isSome)) .morning,
       timeCounts (bs.filter (fun b => b.bookingDate.isSome)) .afternoon,
       timeCounts (bs.filter (fun b => b.bookingDate.isSome)) .evening,
       timeCounts (bs.filter (fun b => b.bookingDate.isSome)) .night +
         bs.countP (fun b => b.bookingDate.isNone)]
    ∧ (detectBookingPatterns bs).dayDistribution.map (fun e => e.percentage) =
      (List.finRange 7).map (fun d =>
        round1 ((dayCounts (bs.filter (fun b => b.bookingDate.isSome)) d : ℚ)
          / bs.length * 100))
    ∧ (detectBookingPatterns bs).timeDistribution.map (fun e => e.percentage) =
      [round1 ((timeCounts (bs.filter (fun b => b.bookingDate.isSome)) .morning : ℚ)
          / bs.length * 100),
       round1 ((timeCounts (bs.filter (fun b => b.bookingDate.isSome)) .afternoon : ℚ)
          / bs.length * 100),
       round1 ((timeCounts (bs.filter (fun b => b.bookingDate.isSome)) .evening : ℚ)
          / bs.length * 100),
       round1 (((timeCounts (bs.filter (fun b => b.bookingDate.isSome)) .night +
          bs.countP (fun b => b.bookingDate.isNone) : ℕ) : ℚ) / bs.length * 100)] := by
  have hE : bs.isEmpty = false := by
    cases h : bs with
    | nil => exact absurd h hne
    | cons a l => rfl
  have htm := timeCounts_split bs .morning
  have hta := timeCounts_split bs .afternoon
  have hte := timeCounts_split bs .evening
  have htn := timeCounts_split bs .night
  simp only [reduceIte, reduceCtorEq, if_false, Nat.add_zero] at htm hta hte htn
  simp only [detectBookingPatterns, hE, Bool.false_eq_true, if_false, List.map_cons,
    List.map_nil, List.map_map, Function.comp_apply]
  refine ⟨?_, ?_, ?_, ?_⟩
  · congr 1
    funext d
    simp only [Function.comp_apply]
    exact dayCounts_filter bs d
  · rw [htm, hta, hte, htn]
  · congr 1
    funext d
    simp only [Function.comp_apply]
    rw [dayCounts_filter bs d]
  · rw [htm, hta, hte, htn]

/-- A booking made on a Monday at 10:00 (parseable). -/
def bkGood : Booking := { bookingDate := some { day := 1, hour := 10, month := 0, ts := 0 } }

/-- A booking whose `bookingDate` cannot be parsed. -/
def bkBad : Booking := { bookingDate := none }

/-- C6 counterexample: adding the unparseable `bkBad` to `[bkGood]` puts one
count into the `night` time-of-day bucket (the claim says the record joins
no bucket) and halves Monday's day-of-week percentage from 100 to 50 (the
claim says the record joins no percentage denominator). -/
theorem C6_unparseable_counterexample :
    ((detectBookingPatterns [bkGood, bkBad]).timeDistribution.getD 3
        { timeOfDay := "", count := 0, percentage := 0 }).count = 1
    ∧ ((detectBookingPatterns [bkGood]).timeDistribution.getD 3
        { timeOfDay := "", count := 0, percentage := 0 }).count = 0
    ∧ ((detectBookingPatterns [bkGood, bkBad]).dayDistribution.getD 1
        { day := "", count := 0, percentage := 0 }).percentage = 50
    ∧ ((detectBookingPatterns [bkGood]).dayDistribution.getD 1
        { day := "", count := 0, percentage := 0 }).percentage = 100
    ∧ (1 : ℕ) ≠ 0 := by
  have hfr : List.finRange 7 = [0, 1, 2, 3, 4, 5, 6] := by decide
  have hd2 : dayCounts [bkGood, bkBad] 1 = 1 := by decide
  have hd1 : dayCounts [bkGood] 1 = 1 := by decide
  have hn2 : timeCounts [bkGood, bkBad] .night = 1 := by decide
  have hn1 : timeCounts [bkGood] .night = 0 := by decide
  refine ⟨?_, ?_, ?_, ?_, by simp⟩
  · simp only [detectBookingPatterns, List.isEmpty_cons, Bool.false_eq_true, if_false,
      List.map_cons, List.map_nil, List.getD_cons_succ, List.getD_cons_zero]
    exact hn2
  · simp only [detectBookingPatterns, List.isEmpty_cons, Bool.false_eq_true, if_false,
      List.map_cons, List.map_nil, List.getD_cons_succ, List.getD_cons_zero]
    exact hn1
  · simp only [detectBookingPatterns, List.isEmpty_cons, Bool.false_eq_true, if_false, hfr,
      List.map_cons, List.map_nil, List.getD_cons_succ, List.getD_cons_zero, hd2,
      List.length_cons, List.length_nil]
    norm_num [round1, jround]
  · simp only [detectBookingPatterns, List.isEmpty_cons, Bool.false_eq_true, if_false, hfr,
      List.map_cons, List.map_nil, List.getD_cons_succ, List.getD_cons_zero, hd1,
      List.length_cons, List.length_nil]
    norm_num [round1, jround]

/-- C6 witness: the amended theorem applied at the concrete two-booking
list containing an unparseable date. -/
theorem C6_amended_witness :
    (detectBookingPatterns [bkGood, bkBad]).dayDistribution.map (fun e => e.count) =
      (List.finRange 7).map (fun d =>
        dayCounts ([bkGood, bkBad].filter (fun b => b.bookingDate.isSome)) d)
    ∧ (detectBookingPatterns [bkGood, bkBad]).timeDistribution.map (fun e => e.count) =
      [timeCounts ([bkGood, bkBad].filter (fun b => b.bookingDate.isSome)) .morning,
       timeCounts ([bkGood, bkBad].filter (fun b => b.bookingDate.isSome)) .afternoon,
       timeCounts ([bkGood, bkBad].filter (fun b => b.bookingDate.isSome)) .evening,
       timeCounts ([bkGood, bkBad].filter (fun b => b.bookingDate.isSome)) .night +
         [bkGood, bkBad].countP (fun b => b.bookingDate.isNone)]
    ∧ (detectBookingPatterns [bkGood, bkBad]).dayDistribution.map (fun e => e.percentage) =
      (List.finRange 7).map (fun d =>
        round1 ((dayCounts ([bkGood, bkBad].filter (fun b => b.bookingDate.isSome)) d : ℚ)
          / ([bkGood, bkBad] : List Booking).length * 100))
    ∧ (detectBookingPatterns [bkGood, bkBad]).timeDistribution.map (fun e => e.percentage) =
      [round1 ((timeCounts ([bkGood, bkBad].filter (fun b => b.bookingDate.isSome)) .morning : ℚ)
          / ([bkGood, bkBad] : List Booking).length * 100),
       round1 ((timeCounts ([bkGood, bkBad].filter (fun b => b.bookingDate.isSome)) .afternoon : ℚ)
          / ([bkGood, bkBad] : List Booking).length * 100),
       round1 ((timeCounts ([bkGood, bkBad].filter (fun b => b.bookingDate.isSome)) .evening : ℚ)
          / ([bkGood, bkBad] : List Booking).length * 100),
       round1 (((timeCounts ([bkGood, bkBad].filter (fun b => b.bookingDate.isSome)) .night +
          [bkGood, bkBad].countP (fun b => b.bookingDate.isNone) : ℕ) : ℚ)
          / ([bkGood, bkBad] : List Booking).length * 100)] :=
  C6_amended_unparseable_dates [bkGood, bkBad] (by simp)

/-! ## C8 — `calculatePlanningWindow` -/

/-- Summing genuinely numeric planning windows is plain integer summation. -/
theorem nanSumZ_map_some (l : List ℤ) : nanSumZ (l.map some) = some l.sum := by
  have key : ∀ (l : List ℤ) (a : ℤ), (l.map some).foldl (fun x y =>
      match x, y with
      | some u, some v => some (u + v)
      | _, _ => none) (some a) = some (a + l.sum) := by
    intro l
    induction l with
    | nil => intro a; simp
    | cons x xs ih =>
      intro a
      simp only [List.map_cons, List.foldl_cons]
      rw [ih, List.sum_cons]
      congr 1
      ring
  simpa [nanSumZ] using key l 0

/-- `Math.min` folded over genuine numbers is the integer minimum fold. -/
theorem nanMin_foldl_map_some (l : List ℤ) (a : ℤ) :
    (l.map some).foldl nanMin (some a) = some (l.foldl min a) := by
  induction l generalizing a with
  | nil => rfl
  | cons x xs ih => simp only [List.map_cons, List.foldl_cons, nanMin]; exact ih (min a x)

theorem nanMax_foldl_map_some (l : List ℤ) (a : ℤ) :
    (l.map some).foldl nanMax (some a) = some (l.foldl max a) := by
  induction l generalizing a with
  | nil => rfl
  | cons x xs ih => simp only [List.map_cons, List.foldl_cons, nanMax]; exact ih (max a x)

/-- The integer min-fold attains an element of `a :: l` and bounds all of
them from below. -/
theorem foldl_min_spec (l : List ℤ) : ∀ a : ℤ,
    (l.foldl min a ∈ a :: l) ∧ l.foldl min a ≤ a ∧ ∀ x ∈ l, l.foldl min a ≤ x := by
  induction l with
  | nil => intro a; simp
  | cons x xs ih =>
    intro a
    obtain ⟨hmem, hle, hall⟩ := ih (min a x)
    simp only [List.foldl_cons]
    refine ⟨?_, le_trans hle (min_le_left a x), ?_⟩
    · rcases List.mem_cons.mp hmem with h | h
      · rw [List.mem_cons, List.mem_cons, h]
        rcases le_total a x with hax | hax
        · exact Or.inl (min_eq_left hax)
        · exact Or.inr (Or.inl (min_eq_right hax))
      · simp [List.mem_cons] at h ⊢
        tauto
    · intro y hy
      rcases List.mem_cons.mp hy with rfl | hy'
      · exact le_trans hle (min_le_right a y)
      · exact hall y hy'

theorem foldl_max_spec (l : List ℤ) : ∀ a : ℤ,
    (l.foldl max a ∈ a :: l) ∧ a ≤ l.foldl max a ∧ ∀ x ∈ l, x ≤ l.foldl max a := by
  induction l with
  | nil => intro a; simp
  | cons x xs ih =>
    intro a
    obtain ⟨hmem, hle, hall⟩ := ih (max a x)
    simp only [List.foldl_cons]
    refine ⟨?_, le_trans (le_max_left a x) hle, ?_⟩
    · rcases List.mem_cons.mp hmem with h | h
      · rw [List.mem_cons, List.mem_cons, h]
        rcases le_total a x with hax | hax
        · exact Or.inr (Or.inl (max_eq_right hax))
        · exact Or.inl (max_eq_left hax)
      · simp [List.mem_cons] at h ⊢
        tauto
    · intro y hy
      rcases List.mem_cons.mp hy with rfl | hy'
      · exact le_trans (le_max_right a y) hle
      · exact hall y hy'

/-- With both dates parsed, each booking's planning window is a genuine
integer day count. -/
theorem map_planningDaysOf (bs : List Booking)
    (hd : ∀ b ∈ bs, b.bookingDate.isSome ∧ b.checkIn.isSome) :
    bs.map planningDaysOf = (bs.filterMap planningDaysOf).map some := by
  induction bs with
  | nil => rfl
  | cons b rest ih =>
    obtain ⟨h1, h2⟩ := hd b (by simp)
    obtain ⟨bd, hbd⟩ := Option.isSome_iff_exists.mp h1
    obtain ⟨cd, hcd⟩ := Option.isSome_iff_exists.mp h2
    have hpb : planningDaysOf b = some (jround ((cd.ts - bd.ts) / 86400000)) := by
      simp [planningDaysOf, hbd, hcd]
    have ih' := ih (fun x hx => hd x (by simp [hx]))
    simp [List.filterMap_cons, hpb, ih']

/-- C8 (confirmed, for bookings whose two dates parse): the report carries
the mean of the per-booking rounded whole-day counts `(checkIn −
bookingDate)/day`, rounded to the nearest integer, their minimum and
maximum, and the planning style is "Spontaneous" for a mean under 14 days,
"Moderate Planner" for 14–59 and "Advance Planner" for 60 or more. -/
theorem C8_planning_window_report (bs : List Booking) (hne : bs ≠ [])
    (hd : ∀ b ∈ bs, b.bookingDate.isSome ∧ b.checkIn.isSome) :
    (∀ b ∈ bs, planningDaysOf b =
      some (jround ((((b.checkIn.map JsDate.ts).getD 0) -
        ((b.bookingDate.map JsDate.ts).getD 0)) / 86400000)))
    ∧ (calculatePlanningWindow bs).averagePlanningDays =
        some (jround (((bs.filterMap planningDaysOf).sum : ℚ) / (bs.length : ℚ)))
    ∧ (∃ m, (calculatePlanningWindow bs).shortestPlanningDays = some m ∧
        m ∈ bs.filterMap planningDaysOf ∧ ∀ x ∈ bs.filterMap planningDaysOf, m ≤ x)
    ∧ (∃ m, (calculatePlanningWindow bs).longestPlanningDays = some m ∧
        m ∈ bs.filterMap planningDaysOf ∧ ∀ x ∈ bs.filterMap planningDaysOf, x ≤ m)
    ∧ ((calculatePlanningWindow bs).planningStyle = some "Spontaneous" ↔
        jround (((bs.filterMap planningDaysOf).sum : ℚ) / (bs.length : ℚ)) < 14)
    ∧ ((calculatePlanningWindow bs).planningStyle = some "Moderate Planner" ↔
        (14 ≤ jround (((bs.filterMap planningDaysOf).sum : ℚ) / (bs.length : ℚ)) ∧
          jround (((bs.filterMap planningDaysOf).sum : ℚ) / (bs.length : ℚ)) < 60))
    ∧ ((calculatePlanningWindow bs).planningStyle = some "Advance Planner" ↔
        60 ≤ jround (((bs.filterMap planningDaysOf).sum : ℚ) / (bs.length : ℚ))) := by
  have hE : bs.isEmpty = false := by
    cases h : bs with
    | nil => exact absurd h hne
    | cons a l => rfl
  have hmap := map_planningDaysOf bs hd
  have hds_ne : bs.filterMap planningDaysOf ≠ [] := by
    intro h0
    have hlen := congrArg List.length hmap
    rw [h0] at hlen
    simp only [List.length_map, List.map_nil, List.length_nil] at hlen
    exact hne (List.length_eq_zero.mp hlen)
  obtain ⟨d0, rest, hds⟩ := List.exists_cons_of_ne_nil hds_ne
  have havg : (calculatePlanningWindow bs).averagePlanningDays =
      some (jround (((bs.filterMap planningDaysOf).sum : ℚ) / (bs.length : ℚ))) := by
    simp only [calculatePlanningWindow, hE, Bool.false_eq_true, if_false, hmap,
      nanSumZ_map_some, Option.map_some']
  have hsty : (calculatePlanningWindow bs).planningStyle = some
      (if jround (((bs.filterMap planningDaysOf).sum : ℚ) / (bs.length : ℚ)) < 14
        then "Spontaneous"
        else if jround (((bs.filterMap planningDaysOf).sum : ℚ) / (bs.length : ℚ)) < 60
          then "Moderate Planner" else "Advance Planner") := by
    simp only [calculatePlanningWindow, hE, Bool.false_eq_true, if_false, hmap,
      nanSumZ_map_some, Option.map_some']
  have hmin : (calculatePlanningWindow bs).shortestPlanningDays =
      some (rest.foldl min d0) := by
    simp only [calculatePlanningWindow, hE, Bool.false_eq_true, if_false, hmap, hds,
      List.map_cons, nanMinList, nanMin_foldl_map_some]
  have hmax : (calculatePlanningWindow bs).longestPlanningDays =
      some (rest.foldl max d0) := by
    simp only [calculatePlanningWindow, hE, Bool.false_eq_true, if_false, hmap, hds,
      List.map_cons, nanMaxList, nanMax_foldl_map_some]
  refine ⟨?_, havg, ?_, ?_, ?_, ?_, ?_⟩
  · intro b hb
    obtain ⟨h1, h2⟩ := hd b hb
    obtain ⟨bd, hbd⟩ := Option.isSome_iff_exists.mp h1
    obtain ⟨cd, hcd⟩ := Option.isSome_iff_exists.mp h2
    simp [planningDaysOf, hbd, hcd]
  · obtain ⟨hmem, hle, hall⟩ := foldl_min_spec rest d0
    refine ⟨rest.foldl min d0, hmin, by rw [hds]; exact hmem, ?_⟩
    intro x hx
    rw [hds] at hx
    rcases List.mem_cons.mp hx with rfl | hx'
    · exact hle
    · exact hall x hx'
  · obtain ⟨hmem, hle, hall⟩ := foldl_max_spec rest d0
    refine ⟨rest.foldl max d0, hmax, by rw [hds]; exact hmem, ?_⟩
    intro x hx
    rw [hds] at hx
    rcases List.mem_cons.mp hx with rfl | hx'
    · exact hle
    · exact hall x hx'
  all_goals
    set A := jround (((bs.filterMap planningDaysOf).sum : ℚ) / (bs.length : ℚ)) with hA
  · rw [hsty]
    split_ifs with h1 h2 <;> simp_all
  · rw [hsty]
    split_ifs with h1 h2 <;> simp_all <;> omega
  · rw [hsty]
    split_ifs with h1 h2 <;> simp_all <;> omega

/-- Scenario A's single booking: check-in 8 days and 15 hours
(745 200 000 ms) after the booking was made. -/
def bkScenA : Booking := { bookingDate := some (dateAt 0), checkIn := some (dateAt 745200000) }

/-- C8 witness: applying the theorem at Scenario A's one-booking list gives
`averagePlanningDays = 9` and style "Spontaneous". -/
theorem C8_planning_window_witness :
    (calculatePlanningWindow [bkScenA]).averagePlanningDays = some 9
    ∧ (calculatePlanningWindow [bkScenA]).planningStyle = some "Spontaneous" := by
  obtain ⟨-, h2, -, -, h5, -, -⟩ :=
    C8_planning_window_report [bkScenA] (by simp) (by simp [bkScenA])
  have hpd : planningDaysOf bkScenA = some 9 := by
    simp only [planningDaysOf, bkScenA, dateAt]
    norm_num [jround]
  have hds : ([bkScenA].filterMap planningDaysOf) = [(9 : ℤ)] := by
    simp [List.filterMap_cons, hpd]
  rw [hds] at h2 h5
  simp only [List.sum_cons, List.sum_nil, List.length_cons, List.length_nil] at h2 h5
  constructor
  · rw [h2]
    norm_num [jround]
  · apply h5.mpr
    norm_num [jround]

/-! ## C7 — percentage sums of the distribution breakdowns -/

/-- Rounding to the nearest tenth moves a value by at most 1/20. -/
theorem round1_sub_le (q : ℚ) : |round1 q - q| ≤ 1 / 20 := by
  rw [round1, jround, abs_sub_le_iff]
  constructor
  · have h2 := Int.floor_le (10 * q + 1 / 2)
    linarith
  · have h := Int.sub_one_lt_floor (10 * q + 1 / 2)
    linarith

/-- Summing display-rounded values moves the total by at most `n/20`. -/
theorem sum_round1_err (l : List ℚ) :
    |(l.map round1).sum - l.sum| ≤ (l.length : ℚ) / 20 := by
  induction l with
  | nil => simp
  | cons x xs ih =>
    simp only [List.map_cons, List.sum_cons, List.length_cons]
    have h1 := round1_sub_le x
    have key : round1 x + (xs.map round1).sum - (x + xs.sum) =
        (round1 x - x) + ((xs.map round1).sum - xs.sum) := by ring
    rw [key]
    calc |(round1 x - x) + ((xs.map round1).sum - xs.sum)|
        ≤ |round1 x - x| + |(xs.map round1).sum - xs.sum| := abs_add _ _
      _ ≤ 1 / 20 + (xs.length : ℚ) / 20 := add_le_add h1 ih
      _ = ((xs.length : ℚ) + 1) / 20 := by ring
      _ = ((xs.length + 1 : ℕ) : ℚ) / 20 := by push_cast; ring

/-- Exact percentages of parts of a non-zero total sum to exactly 100. -/
theorem sum_div_total (l : List ℚ) (T : ℚ) (hT : T ≠ 0) (hsum : l.sum = T) :
    (l.map (fun x => x / T * 100)).sum = 100 := by
  have hfun : (fun x : ℚ => x / T * 100) = (fun x => x * (100 / T)) := by
    funext x
    rw [div_mul_eq_mul_div, mul_div_assoc]
  rw [hfun]
  have h2 : ∀ (m : List ℚ) (c : ℚ), (m.map (fun x => x * c)).sum = m.sum * c := by
    intro m c
    induction m with
    | nil => simp
    | cons y ys ih => simp [ih]; ring
  rw [h2, hsum]
  field_simp

/-- Containers bucketed by an optional key: the bucket counts sum to the
number of records with a present key. -/
theorem sum_countP_optionKey {R K : Type} [Fintype K] [DecidableEq K]
    (key : R → Option K) (l : List R) :
    ∑ k : K, l.countP (fun r => key r = some k) =
      l.countP (fun r => (key r).isSome) := by
  induction l with
  | nil => simp
  | cons r rest ih =>
    simp only [List.countP_cons]
    rw [Finset.sum_add_distrib, ih]
    cases hk : key r with
    | none => simp [hk]
    | some k0 =>
      simp only [hk, Option.some.injEq, Option.isSome_some, if_true, decide_eq_true_eq]
      congr 1
      simp [Finset.sum_ite_eq]

/-- Each booking with a parseable date fills exactly one day-of-week bucket. -/
theorem dayCounts_total (bs : List Booking) :
    ∑ d : Fin 7, dayCounts bs d = bs.countP (fun b => b.bookingDate.isSome) := by
  have h := sum_countP_optionKey (fun b : Booking => b.bookingDate.map (fun dt => dt.day)) bs
  have h2 : List.countP (fun b : Booking => b.bookingDate.isSome) bs =
      List.countP (fun r : Booking => (r.bookingDate.map (fun dt => dt.day)).isSome) bs :=
    List.countP_congr (fun b _ => by cases hb : b.bookingDate <;> simp [hb])
  rw [h2, ← h]
  apply Finset.sum_congr rfl
  intro d _
  apply List.countP_congr
  intro b _
  cases hb : b.bookingDate <;> simp [dayCounts, hb]

/-- Each session with a parseable start fills exactly one hour bucket. -/
theorem hourCounts_total (ss : List Session) :
    ∑ h : Fin 24, hourCounts ss h = ss.countP (fun s => s.startTime.isSome) := by
  have h := sum_countP_optionKey (fun s : Session => s.startTime.map (fun dt => dt.hour)) ss
  have h2 : List.countP (fun s : Session => s.startTime.isSome) ss =
      List.countP (fun r : Session => (r.startTime.map (fun dt => dt.hour)).isSome) ss :=
    List.countP_congr (fun s _ => by cases hs : s.startTime <;> simp [hs])
  rw [h2, ← h]
  apply Finset.sum_congr rfl
  intro d _
  apply List.countP_congr
  intro s _
  cases hs : s.startTime <;> simp [hourCounts, hs]

/-- Every booking lands in exactly one time-of-day bucket. -/
theorem timeCounts_total (bs : List Booking) :
    timeCounts bs .morning + timeCounts bs .afternoon + timeCounts bs .evening +
      timeCounts bs .night = bs.length := by
  induction bs with
  | nil => rfl
  | cons b rest ih =>
    rcases h : timeBucketOf b <;>
      simp [timeCounts, List.countP_cons, h] at ih ⊢ <;> omega

/-- Every search lands in exactly one season bucket. -/
theorem seasonCounts_total (qs : List Search) :
    seasonCounts qs .spring + seasonCounts qs .summer + seasonCounts qs .fall +
      seasonCounts qs .winter = qs.length := by
  induction qs with
  | nil => rfl
  | cons s rest ih =>
    rcases h : seasonOf s <;>
      simp [seasonCounts, List.countP_cons, h] at ih ⊢ <;> omega

theorem firstDedup_subset : ∀ (l : List String) (a : String), a ∈ firstDedup l → a ∈ l
  | [] => by intro a h; simp [firstDedup] at h
  | x :: xs => by
    intro a h
    rw [firstDedup] at h
    rcases List.mem_cons.mp h with rfl | h'
    · simp
    · have hsub := firstDedup_subset (xs.filter (fun y => y ≠ x)) a h'
      exact List.mem_cons_of_mem _ (List.mem_of_mem_filter hsub)
termination_by l => l.length
decreasing_by exact Nat.lt_succ_of_le (List.length_filter_le _ _)

theorem firstDedup_nodup : ∀ l : List String, (firstDedup l).Nodup
  | [] => by simp [firstDedup]
  | x :: xs => by
    rw [firstDedup]
    refine List.nodup_cons.mpr ⟨?_, firstDedup_nodup (xs.filter (fun y => y ≠ x))⟩
    intro hmem
    have h := firstDedup_subset _ _ hmem
    have h2 := List.of_mem_filter h
    simp at h2
termination_by l => l.length
decreasing_by exact Nat.lt_succ_of_le (List.length_filter_le _ _)

theorem mem_firstDedup : ∀ (l : List String) (a : String), a ∈ l → a ∈ firstDedup l
  | [] => by intro a h; simp at h
  | x :: xs => by
    intro a h
    rw [firstDedup]
    rcases List.mem_cons.mp h with rfl | h'
    · simp
    · by_cases hax : a = x
      · simp [hax]
      · exact List.mem_cons_of_mem _
          (mem_firstDedup (xs.filter (fun y => y ≠ x)) a
            (List.mem_filter.mpr ⟨h', by simp [hax]⟩))
termination_by l => l.length
decreasing_by exact Nat.lt_succ_of_le (List.length_filter_le _ _)

theorem map_congr_mem {α β : Type} (l : List α) (f g : α → β)
    (h : ∀ a ∈ l, f a = g a) : l.map f = l.map g := by
  induction l with
  | nil => rfl
  | cons a l' ih =>
    simp only [List.map_cons]
    rw [h a (by simp), ih (fun x hx => h x (by simp [hx]))]

theorem filter_congr_mem {α : Type} (l : List α) (p q : α → Bool)
    (h : ∀ a ∈ l, p a = q a) : l.filter p = l.filter q := by
  induction l with
  | nil => rfl
  | cons a l' ih =>
    simp only [List.filter_cons]
    rw [h a (by simp), ih (fun x hx => h x (by simp [hx]))]

theorem sum_filter_split {α : Type} (p : α → Bool) (f : α → ℚ) (l : List α) :
    ((l.filter p).map f).sum + ((l.filter (fun a => ! p a)).map f).sum = (l.map f).sum := by
  induction l with
  | nil => simp
  | cons a l' ih =>
    cases hp : p a <;> simp [List.filter_cons, hp] <;> linarith

/-- Summing a quantity over the fibers of a duplicate-free, covering key
list is summing it over the whole list. -/
theorem sum_fiber_keys {α : Type} (key : α → String) (f : α → ℚ) :
    ∀ (ks : List String) (l : List α), ks.Nodup → (∀ a ∈ l, key a ∈ ks) →
      (ks.map (fun t => ((l.filter (fun a => key a = t)).map f).sum)).sum = (l.map f).sum := by
  intro ks
  induction ks with
  | nil =>
    intro l _ hcov
    cases l with
    | nil => simp
    | cons a l' => exact absurd (hcov a (by simp)) (by simp)
  | cons t ks' ih =>
    intro l hnd hcov
    have htns : t ∉ ks' := (List.nodup_cons.mp hnd).1
    have hnd' : ks'.Nodup := (List.nodup_cons.mp hnd).2
    simp only [List.map_cons, List.sum_cons]
    have hfib : ks'.map (fun t' => ((l.filter (fun a => key a = t')).map f).sum) =
        ks'.map (fun t' =>
          (((l.filter (fun a => ! (key a = t))).filter (fun a => key a = t')).map f).sum) := by
      apply map_congr_mem
      intro t' ht'
      have htt : t' ≠ t := fun h => htns (h ▸ ht')
      have hft : (l.filter (fun a => key a = t')) =
          ((l.filter (fun a => ! (key a = t))).filter (fun a => key a = t')) := by
        rw [List.filter_filter]
        apply filter_congr_mem
        intro a _
        by_cases hk : key a = t'
        · have hkt : ¬ (key a = t) := fun h => htt (hk.symm.trans h)
          simp [hk, hkt]
          exact htt
        · simp [hk]
      rw [hft]
    rw [hfib, ih (l.filter (fun a => ! (key a = t))) hnd' ?cov]
    · exact sum_filter_split (fun a => key a = t) f l
    case cov =>
      intro a ha
      have h1 := List.mem_of_mem_filter ha
      have h2 := List.of_mem_filter ha
      have h3 := hcov a h1
      rcases List.mem_cons.mp h3 with h4 | h4
      · simp [h4] at h2
      · exact h4

/-- Display-rounded percentages of parts of a non-zero total sum to 100
within `n/20`, `n` the number of parts. -/
theorem sum_round1_pct_bound (l : List ℚ) (T : ℚ) (hT : T ≠ 0) (hsum : l.sum = T) :
    |(l.map (fun x => round1 (x / T * 100))).sum - 100| ≤ (l.length : ℚ) / 20 := by
  have h1 : l.map (fun x => round1 (x / T * 100)) = (l.map (fun x => x / T * 100)).map round1 := by
    rw [List.map_map]
    rfl
  rw [h1]
  have h2 := sum_round1_err (l.map (fun x => x / T * 100))
  rw [sum_div_total l T hT hsum] at h2
  simpa using h2

/-- C7 amended (proved): for every non-empty input whose records all carry
the fields the bucketing reads, the reported per-category percentages sum
to 100 within 0.05 times the number of reported categories: within 0.35
for the 7-bucket day-of-week distribution, 0.2 for the 4-bucket time-of-day
and seasonal distributions, 1.2 for the 24-bucket hourly distribution, and
0.05 per element type for the hover breakdown (whose total duration must be
non-zero for the percentages to be numbers at all). -/
theorem C7_amended_percentage_sums :
    (∀ bs : List Booking, bs ≠ [] → (∀ b ∈ bs, b.bookingDate.isSome) →
      |(((detectBookingPatterns bs).dayDistribution.map (fun e => e.percentage)).sum) - 100|
        ≤ 7 / 20)
    ∧ (∀ bs : List Booking, bs ≠ [] →
      |(((detectBookingPatterns bs).timeDistribution.map (fun e => e.percentage)).sum) - 100|
        ≤ 4 / 20)
    ∧ (∀ ss : List Session, ss ≠ [] → (∀ s ∈ ss, s.startTime.isSome) →
      |(((analyzeBrowsingHours ss).hourlyDistribution.map (fun e => e.percentage)).sum) - 100|
        ≤ 24 / 20)
    ∧ (∀ qs : List Search, qs ≠ [] →
      |(((detectSeasonalTrends qs).seasonalDistribution.map (fun e => e.percentage)).sum) - 100|
        ≤ 4 / 20)
    ∧ (∀ hs : List Hover, hs ≠ [] → totalHoverTime hs ≠ 0 →
      |(((calculateAverageHoverTime hs).elementBreakdown.map (fun e => e.percentage)).sum) - 100|
        ≤ ((calculateAverageHoverTime hs).elementBreakdown.length : ℚ) / 20) := by
  refine ⟨?_, ?_, ?_, ?_, ?_⟩
  · -- day-of-week distribution
    intro bs hne hp
    have hE : bs.isEmpty = false := by
      cases h : bs with
      | nil => exact absurd h hne
      | cons a l => rfl
    have hn : (bs.length : ℚ) ≠ 0 := by
      simpa using fun h => hne (List.length_eq_zero.mp h)
    have hper : (detectBookingPatterns bs).dayDistribution.map (fun e => e.percentage) =
        ((List.finRange 7).map (fun d => (dayCounts bs d : ℚ))).map
          (fun x => round1 (x / (bs.length : ℚ) * 100)) := by
      simp only [detectBookingPatterns, hE, Bool.false_eq_true, if_false, List.map_map]
      rfl
    have hsum : ((List.finRange 7).map (fun d => (dayCounts bs d : ℚ))).sum = (bs.length : ℚ) := by
      have hc : (List.finRange 7).map (fun d => (dayCounts bs d : ℚ)) =
          ((List.finRange 7).map (fun d => dayCounts bs d)).map (fun n : ℕ => (n : ℚ)) := by
        rw [List.map_map]
        rfl
      rw [hc, ← Nat.cast_list_sum]
      have : ((List.finRange 7).map (fun d => dayCounts bs d)).sum = bs.length := by
        rw [← Fin.sum_univ_def, dayCounts_total]
        exact List.countP_eq_length.mpr hp
      rw [this]
    have hbound := sum_round1_pct_bound _ _ hn hsum
    rw [hper]
    simpa using hbound
  · -- time-of-day distribution
    intro bs hne
    have hE : bs.isEmpty = false := by
      cases h : bs with
      | nil => exact absurd h hne
      | cons a l => rfl
    have hn : (bs.length : ℚ) ≠ 0 := by
      simpa using fun h => hne (List.length_eq_zero.mp h)
    have hsum : ([(timeCounts bs .morning : ℚ), (timeCounts bs .afternoon : ℚ),
        (timeCounts bs .evening : ℚ), (timeCounts bs .night : ℚ)]).sum = (bs.length : ℚ) := by
      have := timeCounts_total bs
      push_cast [← this]
      simp only [List.sum_cons, List.sum_nil]
      ring
    have hbound := sum_round1_pct_bound
      [(timeCounts bs .morning : ℚ), (timeCounts bs .afternoon : ℚ),
        (timeCounts bs .evening : ℚ), (timeCounts bs .night : ℚ)] _ hn hsum
    have hper : (detectBookingPatterns bs).timeDistribution.map (fun e => e.percentage) =
        ([(timeCounts bs .morning : ℚ), (timeCounts bs .afternoon : ℚ),
          (timeCounts bs .evening : ℚ), (timeCounts bs .night : ℚ)]).map
            (fun x => round1 (x / (bs.length : ℚ) * 100)) := by
      simp only [detectBookingPatterns, hE, Bool.false_eq_true, if_false, List.map_cons,
        List.map_nil]
    rw [hper]
    simpa using hbound
  · -- hourly distribution
    intro ss hne hp
    have hE : ss.isEmpty = false := by
      cases h : ss with
      | nil => exact absurd h hne
      | cons a l => rfl
    have hn : (ss.length : ℚ) ≠ 0 := by
      simpa using fun h => hne (List.length_eq_zero.mp h)
    have hper : (analyzeBrowsingHours ss).hourlyDistribution.map (fun e => e.percentage) =
        ((List.finRange 24).map (fun h => (hourCounts ss h : ℚ))).map
          (fun x => round1 (x / (ss.length : ℚ) * 100)) := by
      simp only [analyzeBrowsingHours, hE, Bool.false_eq_true, if_false, List.map_map]
      rfl
    have hsum : ((List.finRange 24).map (fun h => (hourCounts ss h : ℚ))).sum = (ss.length : ℚ) := by
      have hc : (List.finRange 24).map (fun h => (hourCounts ss h : ℚ)) =
          ((List.finRange 24).map (fun h => hourCounts ss h)).map (fun n : ℕ => (n : ℚ)) := by
        rw [List.map_map]
        rfl
      rw [hc, ← Nat.cast_list_sum]
      have : ((List.finRange 24).map (fun h => hourCounts ss h)).sum = ss.length := by
        rw [← Fin.sum_univ_def, hourCounts_total]
        exact List.countP_eq_length.mpr hp
      rw [this]
    have hbound := sum_round1_pct_bound _ _ hn hsum
    rw [hper]
    simpa using hbound
  · -- seasonal distribution
    intro qs hne
    have hE : qs.isEmpty = false := by
      cases h : qs with
      | nil => exact absurd h hne
      | cons a l => rfl
    have hn : (qs.length : ℚ) ≠ 0 := by
      simpa using fun h => hne (List.length_eq_zero.mp h)
    have hsum : ([(seasonCounts qs .spring : ℚ), (seasonCounts qs .summer : ℚ),
        (seasonCounts qs .fall : ℚ), (seasonCounts qs .winter : ℚ)]).sum = (qs.length : ℚ) := by
      have := seasonCounts_total qs
      push_cast [← this]
      simp only [List.sum_cons, List.sum_nil]
      ring
    have hbound := sum_round1_pct_bound
      [(seasonCounts qs .spring : ℚ), (seasonCounts qs .summer : ℚ),
        (seasonCounts qs .fall : ℚ), (seasonCounts qs .winter : ℚ)] _ hn hsum
    have hper : (detectSeasonalTrends qs).seasonalDistribution.map (fun e => e.percentage) =
        ([(seasonCounts qs .spring : ℚ), (seasonCounts qs .summer : ℚ),
          (seasonCounts qs .fall : ℚ), (seasonCounts qs .winter : ℚ)]).map
            (fun x => round1 (x / (qs.length : ℚ) * 100)) := by
      simp only [detectSeasonalTrends, hE, Bool.false_eq_true, if_false, List.map_cons,
        List.map_nil]
    rw [hper]
    simpa using hbound
  · -- hover element breakdown
    intro hs hne hT
    have hE : hs.isEmpty = false := by
      cases h : hs with
      | nil => exact absurd h hne
      | cons a l => rfl
    have hper : (calculateAverageHoverTime hs).elementBreakdown.map (fun e => e.percentage) =
        ((firstDedup (hs.map Hover.etype)).map (fun t => hoverTimeByType hs t)).map
          (fun x => round1 (x / totalHoverTime hs * 100)) := by
      simp only [calculateAverageHoverTime, hE, Bool.false_eq_true, if_false, List.map_map]
      rfl
    have hlen : (calculateAverageHoverTime hs).elementBreakdown.length =
        (firstDedup (hs.map Hover.etype)).length := by
      simp only [calculateAverageHoverTime, hE, Bool.false_eq_true, if_false, List.length_map]
    have hsum : ((firstDedup (hs.map Hover.etype)).map (fun t => hoverTimeByType hs t)).sum =
        totalHoverTime hs := by
      have hcov : ∀ a ∈ hs, Hover.etype a ∈ firstDedup (hs.map Hover.etype) := by
        intro a ha
        exact mem_firstDedup _ _ (List.mem_map_of_mem Hover.etype ha)
      exact sum_fiber_keys Hover.etype Hover.dur (firstDedup (hs.map Hover.etype)) hs
        (firstDedup_nodup _) hcov
    have hbound := sum_round1_pct_bound _ _ hT hsum
    rw [hper, hlen]
    simpa using hbound

/-- A parseable booking on weekday `d` at 10:00. -/
def bkOnDay (d : Fin 7) : Booking :=
  { bookingDate := some { day := d, hour := 10, month := 0, ts := 0 } }

/-- Six bookings on six distinct weekdays. -/
def bs6 : List Booking :=
  [bkOnDay 0, bkOnDay 1, bkOnDay 2, bkOnDay 3, bkOnDay 4, bkOnDay 5]

/-- C7 counterexample: with six bookings on six distinct weekdays every
non-empty bucket reports `(100/6).toFixed(1) = 16.7`, so the day-of-week
percentages sum to 100.2 — more than 0.1 away from 100. -/
theorem C7_tolerance_counterexample :
    (((detectBookingPatterns bs6).dayDistribution.map (fun e => e.percentage)).sum) = 501 / 5
    ∧ ¬ (|(501 : ℚ) / 5 - 100| ≤ 1 / 10) := by
  constructor
  · have hfr : List.finRange 7 = [0, 1, 2, 3, 4, 5, 6] := by decide
    have h0 : dayCounts bs6 0 = 1 := by decide
    have h1 : dayCounts bs6 1 = 1 := by decide
    have h2 : dayCounts bs6 2 = 1 := by decide
    have h3 : dayCounts bs6 3 = 1 := by decide
    have h4 : dayCounts bs6 4 = 1 := by decide
    have h5 : dayCounts bs6 5 = 1 := by decide
    have h6 : dayCounts bs6 6 = 0 := by decide
    have hlen : (bs6 : List Booking).length = 6 := by decide
    have hE : (bs6 : List Booking).isEmpty = false := by decide
    simp only [detectBookingPatterns, hE, Bool.false_eq_true, if_false, hfr, List.map_cons,
      List.map_nil, List.sum_cons, List.sum_nil, h0, h1, h2, h3, h4, h5, h6, hlen]
    norm_num [round1, jround]
  · norm_num [abs]

def ssnW : Session := { startTime := some (dateAt 0) }

def hvW : Hover := { duration := some 5, elementType := some "image" }

/-- C7 witness: the amended bounds applied at concrete one-record inputs. -/
theorem C7_amended_witness :
    |(((detectBookingPatterns [bkGood]).dayDistribution.map (fun e => e.percentage)).sum) - 100|
      ≤ 7 / 20
    ∧ |(((detectBookingPatterns [bkGood]).timeDistribution.map (fun e => e.percentage)).sum) - 100|
      ≤ 4 / 20
    ∧ |(((analyzeBrowsingHours [ssnW]).hourlyDistribution.map (fun e => e.percentage)).sum) - 100|
      ≤ 24 / 20
    ∧ |(((detectSeasonalTrends [sCex]).seasonalDistribution.map (fun e => e.percentage)).sum) - 100|
      ≤ 4 / 20
    ∧ |(((calculateAverageHoverTime [hvW]).elementBreakdown.map (fun e => e.percentage)).sum) - 100|
      ≤ ((calculateAverageHoverTime [hvW]).elementBreakdown.length : ℚ) / 20 :=
  ⟨C7_amended_percentage_sums.1 [bkGood] (by simp) (by simp [bkGood]),
   C7_amended_percentage_sums.2.1 [bkGood] (by simp),
   C7_amended_percentage_sums.2.2.1 [ssnW] (by simp) (by simp [ssnW]),
   C7_amended_percentage_sums.2.2.2.1 [sCex] (by simp),
   C7_amended_percentage_sums.2.2.2.2 [hvW] (by simp)
     (by norm_num [totalHoverTime, Hover.dur, hvW])⟩

/-! ## C3 — ranking invariants of `classifyTravelArchetype` -/

theorem mem_insertByScoreDesc {α : Type} (key : α → ℕ) (x a : α) :
    ∀ l : List α, a ∈ insertByScoreDesc key x l ↔ a = x ∨ a ∈ l := by
  intro l
  induction l with
  | nil => simp [insertByScoreDesc]
  | cons y ys ih =>
    simp only [insertByScoreDesc]
    split_ifs with h
    · simp [List.mem_cons]
    · simp only [List.mem_cons, ih]
      tauto

theorem mem_sortByScoreDesc {α : Type} (key : α → ℕ) (a : α) :
    ∀ l : List α, a ∈ sortByScoreDesc key l ↔ a ∈ l := by
  intro l
  induction l with
  | nil => simp [sortByScoreDesc]
  | cons y ys ih =>
    simp only [sortByScoreDesc, mem_insertByScoreDesc, ih, List.mem_cons]

/-- Inserting an element whose priority is below everything already present
preserves the lexicographic (score desc, priority asc) ordering. -/
theorem pairwise_insertByScoreDesc {α : Type} (key pri : α → ℕ) (x : α) :
    ∀ l : List α,
      List.Pairwise (fun a c => key c < key a ∨ (key a = key c ∧ pri a < pri c)) l →
      (∀ y ∈ l, pri x < pri y) →
      List.Pairwise (fun a c => key c < key a ∨ (key a = key c ∧ pri a < pri c))
        (insertByScoreDesc key x l) := by
  intro l
  induction l with
  | nil => intro _ _; simp [insertByScoreDesc]
  | cons y ys ih =>
    intro hl hx
    obtain ⟨hy, hys⟩ := List.pairwise_cons.mp hl
    simp only [insertByScoreDesc]
    split_ifs with h
    · refine List.pairwise_cons.mpr ⟨?_, hl⟩
      intro z hz
      rcases List.mem_cons.mp hz with rfl | hz'
      · rcases Nat.lt_or_ge (key z) (key x) with hlt | hge
        · exact Or.inl hlt
        · exact Or.inr ⟨Nat.le_antisymm hge h, hx z (by simp)⟩
      · have hyz := hy z hz'
        have hzy : key z ≤ key y := by
          rcases hyz with h1 | ⟨h1, _⟩
          · exact Nat.le_of_lt h1
          · exact Nat.le_of_eq h1.symm
        rcases Nat.lt_or_ge (key z) (key x) with hlt | hge
        · exact Or.inl hlt
        · exact Or.inr ⟨Nat.le_antisymm hge (le_trans hzy h),
            hx z (by simp [hz'])⟩
    · refine List.pairwise_cons.mpr ⟨?_, ?_⟩
      · intro z hz
        rcases (mem_insertByScoreDesc key x z ys).mp hz with rfl | hz'
        · exact Or.inl (Nat.lt_of_not_le h)
        · exact hy z hz'
      · exact ih hys (fun z hz => hx z (by simp [hz]))

/-- The stable descending sort of a list whose priorities strictly increase
is lexicographically sorted: scores descend, and equal scores keep the
original (priority) order. -/
theorem pairwise_sortByScoreDesc {α : Type} (key pri : α → ℕ) :
    ∀ l : List α, List.Pairwise (fun a c => pri a < pri c) l →
      List.Pairwise (fun a c => key c < key a ∨ (key a = key c ∧ pri a < pri c))
        (sortByScoreDesc key l) := by
  intro l
  induction l with
  | nil => intro _; simp [sortByScoreDesc]
  | cons y ys ih =>
    intro hp
    obtain ⟨hy, hys⟩ := List.pairwise_cons.mp hp
    simp only [sortByScoreDesc]
    exact pairwise_insertByScoreDesc key pri y (sortByScoreDesc key ys) (ih hys)
      (fun z hz => hy z ((mem_sortByScoreDesc key z ys).mp hz))

/-- The best-match fold's score bounds the start and every element. -/
theorem foldlBest_bounds :
    ∀ (l : List (String × ℕ)) (init : String × ℕ),
      init.2 ≤ (l.foldl (fun best x => if x.2 > best.2 then x else best) init).2 ∧
      ∀ x ∈ l, x.2 ≤ (l.foldl (fun best x => if x.2 > best.2 then x else best) init).2 := by
  intro l
  induction l with
  | nil => intro init; simp
  | cons y ys ih =>
    intro init
    simp only [List.foldl_cons]
    obtain ⟨h1, h2⟩ := ih (if y.2 > init.2 then y else init)
    constructor
    · refine le_trans ?_ h1
      split_ifs with h
      · exact Nat.le_of_lt h
      · exact le_refl _
    · intro x hx
      rcases List.mem_cons.mp hx with rfl | hx'
      · refine le_trans ?_ h1
        split_ifs with h
        · exact le_refl _
        · exact Nat.le_of_not_lt h
      · exact h2 x hx'

/-- When the best-match fold moves off its start, its result is the *first*
element attaining its (maximal) score: everything before it scores
strictly less. -/
theorem foldlBest_first :
    ∀ (l : List (String × ℕ)) (init : String × ℕ),
      (l.foldl (fun best x => if x.2 > best.2 then x else best) init) ≠ init →
      ∃ pre suf, l = pre ++ (l.foldl (fun best x => if x.2 > best.2 then x else best) init) :: suf
        ∧ (∀ x ∈ pre, x.2 < (l.foldl (fun best x => if x.2 > best.2 then x else best) init).2)
        ∧ init.2 < (l.foldl (fun best x => if x.2 > best.2 then x else best) init).2 := by
  intro l
  induction l with
  | nil => intro init h; simp at h
  | cons y ys ih =>
    intro init hne
    simp only [List.foldl_cons] at hne ⊢
    by_cases hy : y.2 > init.2
    · rw [if_pos hy] at hne ⊢
      by_cases hr : ys.foldl (fun best x => if x.2 > best.2 then x else best) y = y
      · rw [hr]
        exact ⟨[], ys, by simp, by simp, hy⟩
      · obtain ⟨pre, suf, hdec, hpre, hinit⟩ := ih y hr
        refine ⟨y :: pre, suf, by rw [List.cons_append, ← hdec], ?_, lt_trans hy hinit⟩
        intro x hx
        rcases List.mem_cons.mp hx with rfl | hx'
        · exact hinit
        · exact hpre x hx'
    · rw [if_neg hy] at hne ⊢
      obtain ⟨pre, suf, hdec, hpre, hinit⟩ := ih init hne
      refine ⟨y :: pre, suf, by rw [List.cons_append, ← hdec], ?_, hinit⟩
      intro x hx
      rcases List.mem_cons.mp hx with rfl | hx'
      · exact lt_of_le_of_lt (Nat.le_of_not_lt hy) hinit
      · exact hpre x hx'

/-- The behavioural-bonus block only ever adds points. -/
theorem bonusFold_fst_le (n : String) (b : Option BehaviorData) (acc : ℕ × List String) :
    acc.1 ≤ (bonusFold n b acc).1 := by
  cases b with
  | none => exact le_refl _
  | some bd =>
    simp only [bonusFold]
    split_ifs <;> simp <;> omega

/-- Whatever the trait-score input, some archetype scores at least 25: the
catalog's neuroticism requirements cover all three levels, so the computed
neuroticism level exactly matches The Explorer (low), The Wellness Seeker
(moderate) or The Comfort Seeker (high). -/
theorem scorePairs_exists_ge25 (p : TraitScores) (b : Option BehaviorData) :
    ∃ x ∈ scorePairs p b, 25 ≤ x.2 := by
  cases hn : personalityCategories p .neuroticism with
  | low =>
    simp only [scorePairs, archetypeScoresList, archetypes, List.map_cons, List.map_nil,
      List.mem_cons, List.not_mem_nil, or_false]
    refine ⟨_, Or.inl rfl, ?_⟩
    refine le_trans ?_ (bonusFold_fst_le _ b _)
    rw [traitFold_score]
    simp only [List.map_cons, List.map_nil, List.sum_cons, List.sum_nil]
    have h25 : traitMatchPoints (personalityCategories p Trait.neuroticism) TraitLevel.low
        = 25 := by rw [hn]; rfl
    rw [h25]
    omega
  | moderate =>
    simp only [scorePairs, archetypeScoresList, archetypes, List.map_cons, List.map_nil,
      List.mem_cons, List.not_mem_nil, or_false]
    refine ⟨_, Or.inr (Or.inr (Or.inr (Or.inr (Or.inr (Or.inr (Or.inr rfl)))))), ?_⟩
    refine le_trans ?_ (bonusFold_fst_le _ b _)
    rw [traitFold_score]
    simp only [List.map_cons, List.map_nil, List.sum_cons, List.sum_nil]
    have h25 : traitMatchPoints (personalityCategories p Trait.neuroticism) TraitLevel.moderate
        = 25 := by rw [hn]; rfl
    rw [h25]
    omega
  | high =>
    simp only [scorePairs, archetypeScoresList, archetypes, List.map_cons, List.map_nil,
      List.mem_cons, List.not_mem_nil, or_false]
    refine ⟨_, Or.inr (Or.inl rfl), ?_⟩
    refine le_trans ?_ (bonusFold_fst_le _ b _)
    rw [traitFold_score]
    simp only [List.map_cons, List.map_nil, List.sum_cons, List.sum_nil]
    have h25 : traitMatchPoints (personalityCategories p Trait.neuroticism) TraitLevel.high
        = 25 := by rw [hn]; rfl
    rw [h25]
    omega

/-- C3 (confirmed): the returned top list is sorted by strictly descending
score with ties in catalog declaration order (earlier-declared first), and
the primary archetype is the earliest-declared archetype attaining the
maximal score: the catalog's score pairs split as `pre ++ primary :: suf`
with everything in `pre` scoring strictly below the primary's score, which
bounds every archetype's score. -/
theorem C3_ranking_invariants (p : TraitScores) (b : Option BehaviorData) :
    List.Pairwise (fun x y => y.score ≤ x.score) (classifyTravelArchetype p b).topArchetypes
    ∧ List.Pairwise (fun x y => y.score < x.score ∨
        (x.score = y.score ∧ catalogIdx x.archetype < catalogIdx y.archetype))
      (classifyTravelArchetype p b).topArchetypes
    ∧ ∃ pre suf, scorePairs p b =
        pre ++ ((classifyTravelArchetype p b).primaryArchetype,
          (classifyTravelArchetype p b).matchScore) :: suf
        ∧ (∀ x ∈ pre, x.2 < (classifyTravelArchetype p b).matchScore)
        ∧ (∀ x ∈ scorePairs p b, x.2 ≤ (classifyTravelArchetype p b).matchScore) := by
  have hpri : List.Pairwise (fun a c : String × ScoreData => catalogIdx a.1 < catalogIdx c.1)
      (archetypeScoresList p b) := by
    have hnames : List.Pairwise (fun a c : String => catalogIdx a < catalogIdx c)
        (archetypes.map Prod.fst) := by decide
    have h1 := List.pairwise_map.mp hnames
    simp only [archetypeScoresList]
    exact List.pairwise_map.mpr (h1.imp (fun h => h))
  have hlex := pairwise_sortByScoreDesc (fun x : String × ScoreData => x.2.score)
    (fun x => catalogIdx x.1) (archetypeScoresList p b) hpri
  have htake := List.Pairwise.sublist (List.take_sublist 3 _) hlex
  have htop : List.Pairwise (fun x y => y.score < x.score ∨
      (x.score = y.score ∧ catalogIdx x.archetype < catalogIdx y.archetype))
      (classifyTravelArchetype p b).topArchetypes := by
    simp only [classifyTravelArchetype]
    exact List.pairwise_map.mpr (htake.imp (fun h => h))
  refine ⟨htop.imp ?_, htop, ?_⟩
  · intro a c h
    rcases h with h | ⟨h, _⟩
    · exact le_of_lt h
    · exact le_of_eq h.symm
  · obtain ⟨x, hxmem, hx25⟩ := scorePairs_exists_ge25 p b
    have hbounds := foldlBest_bounds (scorePairs p b) ("", 0)
    have hr2 : 25 ≤
        ((scorePairs p b).foldl (fun best x => if x.2 > best.2 then x else best) ("", 0)).2 :=
      le_trans hx25 (hbounds.2 x hxmem)
    have hrne : (scorePairs p b).foldl (fun best x => if x.2 > best.2 then x else best) ("", 0)
        ≠ ("", 0) := by
      intro h
      rw [h] at hr2
      simp at hr2
    obtain ⟨pre, suf, hdec, hpre, _⟩ := foldlBest_first (scorePairs p b) ("", 0) hrne
    exact ⟨pre, suf, hdec, hpre, fun y hy => hbounds.2 y hy⟩

/-- The best-match `reduce` is seeded with `{archetype: '', score: 0}` and
replaces it only on a strictly greater score, so over a hypothetical
all-zero score list it would return the empty-string archetype — not the
first catalog entry.  (By `scorePairs_exists_ge25` no trait-score input
actually produces an all-zero score list.) -/
theorem foldlBest_all_zero (l : List (String × ℕ)) (h : ∀ x ∈ l, x.2 = 0) :
    l.foldl (fun best x => if x.2 > best.2 then x else best) ("", 0) = ("", 0) := by
  have key : ∀ (m : List (String × ℕ)) (init : String × ℕ), (∀ x ∈ m, x.2 = 0) →
      init.2 = 0 → m.foldl (fun best x => if x.2 > best.2 then x else best) init = init := by
    intro m
    induction m with
    | nil => intro init _ _; rfl
    | cons y ys ih =>
      intro init hm hi
      simp only [List.foldl_cons]
      have hy : y.2 = 0 := hm y (by simp)
      rw [if_neg (by omega)]
      exact ih init (fun x hx => hm x (by simp [hx])) hi
  exact key l ("", 0) h rfl
